import Mathlib

/-!
Verification development for the graduation-survey extraction scripts
(`outcome_extraction_week1.py`, `employment_search_week2.py`,
`internship_salary_week3.py`, `top_employers_StretchgGoals.py`).

The Python sources are shallowly embedded below.  Strings are modelled as
`List Char`; the Python `re` patterns used by the scripts are embedded as
data for a small backtracking regular-expression engine whose search order
matches CPython's `re` module (leftmost match, ordered alternation, greedy
and lazy repetition by backtracking); Python floats are modelled as exact
rationals (every numeric literal the scripts parse has a short decimal
expansion, so no rounding behaviour is lost on the inputs considered).
-/

namespace Survey

/-! ## Python string primitives (on `List Char`) -/

/-- Python whitespace for `str.strip` / `\s` (ASCII subset plus NBSP and NEL;
the corpus and all inputs considered here contain only these). -/
def isPySpace (c : Char) : Bool :=
  c = ' ' || c = '\t' || c = '\n' || c = '\r' || c = '\x0b' || c = '\x0c' ||
  c = '\x85' || c = '\xa0'

def isPyDigit (c : Char) : Bool := '0' ≤ c && c ≤ '9'

def isPyLowerAZ (c : Char) : Bool := 'a' ≤ c && c ≤ 'z'

def isPyUpperAZ (c : Char) : Bool := 'A' ≤ c && c ≤ 'Z'

def isPyAlpha (c : Char) : Bool := isPyLowerAZ c || isPyUpperAZ c

/-- `\w` (word character) for the ASCII inputs handled here. -/
def isWordChar (c : Char) : Bool := isPyAlpha c || isPyDigit c || c = '_'

/-- ASCII `str.lower`. -/
def pyLower (s : List Char) : List Char :=
  s.map fun c => if isPyUpperAZ c then Char.ofNat (c.toNat + 32) else c

/-- ASCII `str.upper`. -/
def pyUpper (s : List Char) : List Char :=
  s.map fun c => if isPyLowerAZ c then Char.ofNat (c.toNat - 32) else c

def dropLeadingSpace (s : List Char) : List Char := s.dropWhile isPySpace

/-- Python `str.strip()`: drop trailing, then leading, whitespace. -/
def pyStrip (s : List Char) : List Char :=
  dropLeadingSpace ((dropLeadingSpace s.reverse).reverse)

/-- Python `str.rstrip(chars)` restricted to a single strip character. -/
def pyRstripChar (c : Char) (s : List Char) : List Char :=
  ((s.reverse).dropWhile (· = c)).reverse

/-- Does `pat` occur as a prefix of `s`? -/
def startsWith : List Char → List Char → Bool
  | _, [] => true
  | [], _ :: _ => false
  | c :: cs, p :: ps => c = p && startsWith cs ps

/-- Python `pat in s` (substring containment). -/
def containsSub (s pat : List Char) : Bool :=
  match s with
  | [] => startsWith [] pat
  | _ :: cs => startsWith s pat || containsSub cs pat

/-- Python `s.endswith(pat)`. -/
def endsWith (s pat : List Char) : Bool := startsWith s.reverse pat.reverse

/-- Worker for `pyReplace`; `fuel` exceeds the input length, and every
step consumes at least one input character. -/
def pyReplaceGo (pat repl : List Char) : Nat → List Char → List Char
  | 0, s => s
  | fuel + 1, s =>
    match s with
    | [] => []
    | c :: cs =>
      if pat ≠ [] && startsWith s pat then
        repl ++ pyReplaceGo pat repl fuel (s.drop pat.length)
      else c :: pyReplaceGo pat repl fuel cs

/-- Python `s.replace(pat, repl)` for a non-empty `pat`
(all the replacements performed by the scripts use non-empty patterns). -/
def pyReplace (s pat repl : List Char) : List Char :=
  pyReplaceGo pat repl (s.length + 1) s

/-- Worker for `splitLines` (fuel exceeds the input length). -/
def splitLinesGo : Nat → List Char → List (List Char)
  | 0, _ => []
  | fuel + 1, s =>
    match s with
    | [] => []
    | _ :: _ =>
      let first := s.takeWhile (· ≠ '\n')
      let rest := s.dropWhile (· ≠ '\n')
      match rest with
      | [] => [first]
      | _ :: tail => first :: splitLinesGo fuel tail

/-- Python `str.splitlines()` for texts whose line breaks are `\n`
(the only line break produced by the upstream text extractor). -/
def splitLines (s : List Char) : List (List Char) :=
  splitLinesGo (s.length + 1) s

/-- Worker for `pySplitWs` (fuel exceeds the input length). -/
def pySplitWsGo : Nat → List Char → List (List Char)
  | 0, _ => []
  | fuel + 1, s =>
    match dropLeadingSpace s with
    | [] => []
    | c :: cs =>
      let tok := (c :: cs).takeWhile (fun c => !isPySpace c)
      let rest := (c :: cs).dropWhile (fun c => !isPySpace c)
      tok :: pySplitWsGo fuel rest

/-- Python `s.split()` (split on whitespace runs, dropping empty fields). -/
def pySplitWs (s : List Char) : List (List Char) :=
  pySplitWsGo (s.length + 1) s

/-- `" ".join(xs)`. -/
def joinWith (sep : List Char) : List (List Char) → List Char
  | [] => []
  | [x] => x
  | x :: y :: rest => x ++ sep ++ joinWith sep (y :: rest)

/-- Python `str.isdigit()` on ASCII content: non-empty and all digits. -/
def pyIsDigit (s : List Char) : Bool := !s.isEmpty && s.all isPyDigit

/-- Decimal value of a digit list. -/
def digitsToNat (s : List Char) : Nat :=
  s.foldl (fun acc c => acc * 10 + (c.toNat - '0'.toNat)) 0

/-- Python `int(s)` for strings that passed `isdigit`. -/
def pyInt (s : List Char) : Nat := digitsToNat s

/-- Python `float(s)` for the decimal forms appearing in this corpus:
optional sign, then digits with at most one decimal point and at least one
digit overall (`"18.50"`, `"250"`, `".5"`, `"1."`).  Exponents, `inf`/`nan`
and underscores never occur in the extracted fields and are not modelled;
the value is represented exactly as a rational. -/
def pyFloat (s0 : List Char) : Option ℚ :=
  let s1 := pyStrip s0
  let sign : ℚ := if s1.head? = some '-' then -1 else 1
  let s := if s1.head? = some '-' || s1.head? = some '+' then s1.tail else s1
  let intPart := s.takeWhile isPyDigit
  let rest := s.dropWhile isPyDigit
  if rest.isEmpty then
    if intPart.isEmpty then none
    else some (sign * (digitsToNat intPart : ℚ))
  else if rest.head? = some '.' then
    let frac := rest.tail
    if frac.all isPyDigit && !(intPart.isEmpty && frac.isEmpty) then
      some (sign * ((digitsToNat intPart : ℚ) +
        (digitsToNat frac : ℚ) / ((10 : ℚ) ^ frac.length)))
    else none
  else none

/-! ## Regular-expression engine

A direct backtracking matcher whose exploration order coincides with
CPython `re` for the constructs the scripts use: ordered alternation,
greedy (`*`, `+`, `?`, `{m,n}`) and lazy (`*?`, `{m,n}?`) repetition,
character classes, capture groups (last match wins), negative lookahead,
word boundaries, and the `^`/`$` anchors (no MULTILINE/DOTALL flag is set
by any pattern in the sources).  Case-insensitive patterns are embedded by
lower-case-folding their literals and classes. -/

inductive RE where
  | eps : RE
  | cls : (Char → Bool) → RE
  | seq : RE → RE → RE
  | alt : RE → RE → RE
  /-- `rep lazy lo hi r`: between `lo` and `hi` (none = unbounded) copies. -/
  | rep : Bool → Nat → Option Nat → RE → RE
  | grp : Nat → RE → RE
  /-- negative lookahead `(?!r)` -/
  | nla : RE → RE
  | wb : RE
  | bos : RE
  | eos : RE

/-- Matcher state: the character preceding the current position (for `\b`),
the remaining input, and captures recorded so far (most recent first). -/
structure MSt where
  prev : Option Char
  rest : List Char
  caps : List (Nat × List Char)

/-- Backtracking matcher in continuation-passing style.  `fuel` bounds the
recursion depth only (every concrete run below uses ample fuel; the engine
explores exactly the CPython backtracking order). -/
def mrun : Nat → RE → MSt → (MSt → Option MSt) → Option MSt
  | 0, _, _, _ => none
  | fuel + 1, re, st, k =>
    match re with
    | .eps => k st
    | .cls f =>
      match st.rest with
      | [] => none
      | c :: cs => if f c then k ⟨some c, cs, st.caps⟩ else none
    | .seq a b => mrun fuel a st (fun st1 => mrun fuel b st1 k)
    | .alt a b =>
      match mrun fuel a st k with
      | some r => some r
      | none => mrun fuel b st k
    | .grp i a =>
      let before := st.rest
      mrun fuel a st (fun st1 =>
        k ⟨st1.prev, st1.rest, (i, before.take (before.length - st1.rest.length)) :: st1.caps⟩)
    | .nla a =>
      match mrun fuel a st some with
      | some _ => none
      | none => k st
    | .wb =>
      let l := match st.prev with | some c => isWordChar c | none => false
      let r := match st.rest with | c :: _ => isWordChar c | [] => false
      if l ≠ r then k st else none
    | .bos => match st.prev with | none => k st | some _ => none
    | .eos => match st.rest with | [] => k st | _ :: _ => none
    | .rep lz lo hi a =>
      match lo with
      | lo' + 1 =>
        mrun fuel a st (fun st1 =>
          mrun fuel (.rep lz lo' (hi.map (· - 1)) a) st1 k)
      | 0 =>
        if hi = some 0 then k st
        else if lz then
          match k st with
          | some r => some r
          | none =>
            mrun fuel a st (fun st1 =>
              mrun fuel (.rep lz 0 (hi.map (· - 1)) a) st1 k)
        else
          match mrun fuel a st (fun st1 =>
              mrun fuel (.rep lz 0 (hi.map (· - 1)) a) st1 k) with
          | some r => some r
          | none => k st

/-- Fuel comfortably above the recursion depth of any match below. -/
def reFuel (s : List Char) : Nat := 20 * s.length + 4000

/-- Attempt a match at the current position (`re.match` when `prev = none`). -/
def matchHere (r : RE) (prev : Option Char) (s : List Char) : Option MSt :=
  mrun (reFuel s) r ⟨prev, s, []⟩ some

/-- `re.search`: leftmost match; returns the suffix at which the match
started together with the final matcher state. -/
def searchIn (r : RE) : Option Char → List Char → Option (List Char × MSt)
  | prev, s =>
    match matchHere r prev s with
    | some st => some (s, st)
    | none =>
      match s with
      | [] => none
      | c :: cs => searchIn r (some c) cs

/-- Capture lookup (`m.group(i)`); most recent match of the group wins. -/
def capGet (st : MSt) (i : Nat) : Option (List Char) :=
  (st.caps.find? (fun p => p.1 = i)).map (·.2)

/-- `re.search(r, s)` returning the final state. -/
def reSearch (r : RE) (s : List Char) : Option MSt :=
  (searchIn r none s).map (·.2)

def reSearchB (r : RE) (s : List Char) : Bool := (reSearch r s).isSome

/-- `re.match(r, s)` (anchored at the start). -/
def reMatch (r : RE) (s : List Char) : Option MSt := matchHere r none s

/-- The text consumed by a match that started at suffix `suf`. -/
def matchedText (suf : List Char) (st : MSt) : List Char :=
  suf.take (suf.length - st.rest.length)

/-- `re.findall` for group-free patterns: the list of matched substrings,
scanning left to right, non-overlapping, zero-width matches advance by one
character (CPython semantics). -/
def findallGo (r : RE) : Nat → Option Char → List Char → List (List Char)
  | 0, _, _ => []
  | fuel + 1, prev, s =>
    match searchIn r prev s with
    | none => []
    | some (suf, st) =>
      let m := matchedText suf st
      if m.isEmpty then
        match st.rest with
        | [] => [m]
        | c :: cs => m :: findallGo r fuel (some c) cs
      else m :: findallGo r fuel st.prev st.rest

def reFindall (r : RE) (s : List Char) : List (List Char) :=
  findallGo r (s.length + 1) none s

/-- `re.sub(r, repl, s)` for a constant replacement string. -/
def subGo (r : RE) (repl : List Char) : Nat → Option Char → List Char → List Char
  | 0, _, s => s
  | fuel + 1, prev, s =>
    match searchIn r prev s with
    | none => s
    | some (suf, st) =>
      let pre := s.take (s.length - suf.length)
      let m := matchedText suf st
      if m.isEmpty then
        match st.rest with
        | [] => pre ++ repl
        | c :: cs => pre ++ repl ++ [c] ++ subGo r repl fuel (some c) cs
      else pre ++ repl ++ subGo r repl fuel st.prev st.rest

def reSub (r : RE) (repl : List Char) (s : List Char) : List Char :=
  subGo r repl (s.length + 1) none s

/-! ### Pattern-building helpers -/

/-- Case-sensitive literal character. -/
def chr (c : Char) : RE := .cls (· = c)

/-- Case-insensitive literal character (for patterns compiled with `re.I`). -/
def chrI (c : Char) : RE :=
  .cls (fun x => (if isPyUpperAZ x then Char.ofNat (x.toNat + 32) else x) =
                 (if isPyUpperAZ c then Char.ofNat (c.toNat + 32) else c))

def cat : List RE → RE
  | [] => .eps
  | [r] => r
  | r :: rest => .seq r (cat rest)

def altL : List RE → RE
  | [] => .cls (fun _ => false)
  | [r] => r
  | r :: rest => .alt r (altL rest)

/-- Case-sensitive literal string. -/
def lit (s : String) : RE := cat (s.toList.map chr)

/-- Case-insensitive literal string. -/
def litI (s : String) : RE := cat (s.toList.map chrI)

def star (r : RE) : RE := .rep false 0 none r
def plus (r : RE) : RE := .rep false 1 none r
def opt (r : RE) : RE := .rep false 0 (some 1) r
def lazyStar (r : RE) : RE := .rep true 0 none r

/-- `\s` -/
def wsC : RE := .cls isPySpace
/-- `\d` -/
def digitC : RE := .cls isPyDigit
/-- `.` (no DOTALL: anything but a newline) -/
def dotC : RE := .cls (· ≠ '\n')

/-- `\s+` -/
def wsPlus : RE := plus wsC

/-! ## Shared unit taxonomy

`unit_order`, `unit_key` and the dictionary helpers are textually identical
in all three weekly scripts and are defined once. -/

/-- The fixed ordered enumeration of canonical organizational units
(identical list in all three scripts). -/
def unit_order : List String := [
  "University-wide",
  "College of Agriculture and Natural Resources",
  "College of Arts and Humanities",
  "College of Behavioral and Social Sciences",
  "College of Computer, Mathematical, and Natural Sciences",
  "College of Education",
  "College of Information",
  "The A. James Clark School of Engineering",
  "Philip Merrill College of Journalism",
  "School of Architecture, Planning, and Preservation",
  "School of Public Health",
  "School of Public Policy",
  "The Robert H. Smith School of Business",
  "College Park Scholars",
  "Honors College",
  "Letters and Sciences",
  "Undergraduate Studies"]

/-- `re.sub(r"[^a-z0-9]+", " ", s)` pattern. -/
def nonAlnumRun : RE := plus (.cls fun c => !(isPyLowerAZ c || isPyDigit c))

/-- `unit_key` (identical in all three scripts): lower-case, unify dashes,
expand `&`, collapse non-alphanumerics to single spaces, drop the token
`and`, and re-join with single spaces. -/
def unit_key (s : String) : String :=
  let l := pyLower s.toList
  let l := pyReplace l "–".toList "-".toList
  let l := pyReplace l "—".toList "-".toList
  let l := pyReplace l "&".toList " and ".toList
  let l := reSub nonAlnumRun " ".toList l
  let l := pyStrip (reSub wsPlus " ".toList l)
  let toks := (pySplitWs l).filter (fun t => t ≠ "and".toList)
  String.mk (joinWith " ".toList toks)

/-- Python `dict` assignment `d[k] = v` (overwrite or append). -/
def dictInsert (d : List (String × String)) (k v : String) : List (String × String) :=
  if d.any (fun p => p.1 = k) then d.map (fun p => if p.1 = k then (k, v) else p)
  else d ++ [(k, v)]

/-- Python `d.get(k)` / `d[k]`. -/
def dictGet (d : List (String × String)) (k : String) : Option String :=
  (d.find? (fun p => p.1 = k)).map (·.2)

/-- `university\s*[- ]\s*wide|universitywide` (applied to lower-cased text
in all three scripts). -/
def univWideRE : RE :=
  .alt (cat [lit "university", star wsC, .cls (fun c => c = '-' || c = ' '),
             star wsC, lit "wide"])
       (lit "universitywide")

/-! ## `internship_salary_week3.py` -/

namespace W3

/-- Footer-abbreviation table `ABBR_TO_UNIT`. -/
def ABBR_TO_UNIT : List (String × String) := [
  ("AGNR", "College of Agriculture and Natural Resources"),
  ("ARHU", "College of Arts and Humanities"),
  ("BSOS", "College of Behavioral and Social Sciences"),
  ("CMNS", "College of Computer, Mathematical, and Natural Sciences"),
  ("EDUC", "College of Education"),
  ("INFO", "College of Information"),
  ("ENGR", "The A. James Clark School of Engineering"),
  ("JOUR", "Philip Merrill College of Journalism"),
  ("ARCH", "School of Architecture, Planning, and Preservation"),
  ("SPHL", "School of Public Health"),
  ("PLCY", "School of Public Policy"),
  ("PPOL", "School of Public Policy"),
  ("BMGT", "The Robert H. Smith School of Business"),
  ("LTSC", "Letters and Sciences"),
  ("LESC", "Letters and Sciences"),
  ("HNRS", "Honors College"),
  ("CPS", "College Park Scholars"),
  ("UGST", "Undergraduate Studies"),
  ("UGS", "Undergraduate Studies"),
  ("OVERALL", "University-wide")]

/-- `FOOTER_ABBR_RE = \b([A-Z]{3,8})\s+\d{1,3}\s*$` -/
def FOOTER_ABBR_RE : RE :=
  cat [.wb, .grp 1 (.rep false 3 (some 8) (.cls isPyUpperAZ)),
       plus wsC, .rep false 1 (some 3) digitC, star wsC, .eos]

/-- `FOOTER_TRAILNUM_RE = ^(?P<txt>.+?)\s+(?P<num>\d{1,3})\s*$`
(group 1 = `txt`, group 2 = `num`). -/
def FOOTER_TRAILNUM_RE : RE :=
  cat [.bos, .grp 1 (.rep true 1 none dotC), plus wsC,
       .grp 2 (.rep false 1 (some 3) digitC), star wsC, .eos]

/-- `normalize_whitespace`. -/
def normalize_whitespace (s : List Char) : List Char :=
  pyStrip (reSub wsPlus " ".toList (pyReplace s "\xa0".toList " ".toList))

/-- `os.path.basename` for POSIX paths. -/
def basename (s : List Char) : List Char :=
  (s.reverse.takeWhile (· ≠ '/')).reverse

/-- `^(20\d{2})` -/
def leadYearRE : RE := .grp 1 (cat [lit "20", digitC, digitC])

/-- `(20\d{2})\s*[-–]\s*(20\d{2})` -/
def yearRangeRE : RE :=
  cat [.grp 1 (cat [lit "20", digitC, digitC]), star wsC,
       .cls (fun c => c = '-' || c = '–'), star wsC,
       .grp 2 (cat [lit "20", digitC, digitC])]

/-- `20\d{2}` (for `re.findall`). -/
def yearTokenRE : RE := cat [lit "20", digitC, digitC]

/-- `infer_year_from_filename` (week-3 version: takes the FIRST year token
found by `findall` as the final fallback). -/
def infer_year_from_filename (fname : String) : Option Nat :=
  let base := basename fname.toList
  match reMatch leadYearRE base with
  | some st => (capGet st 1).map pyInt
  | none =>
    match reSearch yearRangeRE base with
    | some st => (capGet st 2).map pyInt
    | none =>
      match reFindall yearTokenRE base with
      | [] => none
      | y :: _ => some (pyInt y)

/-- `to_int` (on an `m.group(...)` result; `None` becomes `""`). -/
def to_int (o : Option (List Char)) : Option Nat :=
  let s := pyStrip (pyReplace (o.getD []) ",".toList [])
  if pyIsDigit s then some (pyInt s) else none

/-- `to_float` (on an `m.group(...)` result; `None` becomes `""`). -/
def to_float (o : Option (List Char)) : Option ℚ :=
  pyFloat (pyStrip (pyReplace (pyReplace (o.getD []) "$".toList [])
    ",".toList []))

/-- The week-3 `unit_lookup` dictionary: canonical names keyed by
`unit_key`, plus the typo/renaming aliases added by the script. -/
def unit_lookup : List (String × String) :=
  let d := unit_order.map (fun u => (unit_key u, u))
  let d := dictInsert d (unit_key "Phillip Merrill College of Journalism")
    "Philip Merrill College of Journalism"
  let d := dictInsert d (unit_key "College of Information Studies")
    "College of Information"
  let d := dictInsert d (unit_key "Robert H. Smith School of Business")
    "The Robert H. Smith School of Business"
  let d := dictInsert d (unit_key "Robert H Smith School of Business")
    "The Robert H. Smith School of Business"
  let d := dictInsert d (unit_key "Office of Undergraduate Studies")
    "Undergraduate Studies"
  let d := dictInsert d (unit_key "Division of Undergraduate Studies")
    "Undergraduate Studies"
  d

/-- `canonicalize_unit` (week-3 version). -/
def canonicalize_unit (u0 : String) : String :=
  let u := pyReplace (pyReplace (normalize_whitespace u0.toList)
    "–".toList "-".toList) "—".toList "-".toList
  let low := pyStrip (pyLower u)
  if reSearchB univWideRE low then "University-wide"
  else if low = "university of maryland".toList then "University-wide"
  else if containsSub low "university of maryland".toList &&
          containsSub low "overall".toList then "University-wide"
  else (dictGet unit_lookup (unit_key (String.mk u))).getD (String.mk u)

/-- Stripped non-empty lines of a page text (the list comprehension
`[ln.strip() for ln in (page_text or "").splitlines() if ln.strip()]`). -/
def pageLines (page_text : String) : List (List Char) :=
  ((splitLines page_text.toList).map pyStrip).filter (fun l => !l.isEmpty)

/-- The window test used by `extract_unit_candidate`. -/
def candTest (s : List Char) : Option String :=
  let cand := canonicalize_unit (String.mk (pyReplace s " ,".toList ",".toList))
  if cand ∈ unit_order then some cand else none

/-- Scanner for `extract_unit_candidate`: at each index try the line, the
line joined with its successor, and the line joined with its next two
(`rem` is `max_scan - i`; a window is tried only while it stays inside the
first `max_scan` lines, exactly as the `i + 1 < max_scan` guards do). -/
def scanWindows : Nat → List (List Char) → Option String
  | 0, _ => none
  | _ + 1, [] => none
  | rem + 1, a :: rest =>
    match candTest a with
    | some h => some h
    | none =>
      let two :=
        match rest with
        | b :: _ =>
          if 1 ≤ rem then
            candTest (pyStrip (pyRstripChar ',' a ++ " ".toList ++ b))
          else none
        | [] => none
      match two with
      | some h => some h
      | none =>
        let three :=
          match rest with
          | b :: c :: _ =>
            if 2 ≤ rem then
              candTest (pyStrip (pyRstripChar ',' a ++ " ".toList ++ b ++
                " ".toList ++ c))
            else none
          | _ => none
        match three with
        | some h => some h
        | none => scanWindows rem rest

/-- `extract_unit_candidate`. -/
def extract_unit_candidate (page_text : String) : Option String :=
  let lines := pageLines page_text
  let max_scan := min 60 lines.length
  scanWindows max_scan lines

/-- `\boverall\b` with `re.I`. -/
def overallRE : RE := cat [.wb, litI "overall", .wb]

/-- Per-line test of `extract_unit_from_footer`. -/
def footerLineTest (ln : List Char) : Option String :=
  match reSearch FOOTER_ABBR_RE ln with
  | some st =>
    match (capGet st 1).map String.mk with
    | some code =>
      match dictGet ABBR_TO_UNIT code with
      | some u => some u
      | none => footerFallback ln
    | none => footerFallback ln
  | none => footerFallback ln
where
  footerFallback (ln : List Char) : Option String :=
    match reMatch FOOTER_TRAILNUM_RE ln with
    | some st =>
      let cand := canonicalize_unit (String.mk ((capGet st 1).getD []))
      if cand ∈ unit_order then some cand else footerOverall ln
    | none => footerOverall ln
  footerOverall (ln : List Char) : Option String :=
    if reSearchB overallRE ln then some "University-wide" else none

/-- `extract_unit_from_footer`: check the last (up to) 12 non-empty lines in
reverse order. -/
def extract_unit_from_footer (page_text : String) : Option String :=
  let lines := pageLines page_text
  let lastLines := (lines.drop (lines.length - 12)).reverse
  lastLines.foldl (fun acc ln => acc <|> footerLineTest ln) none

/-- `extract_unit_anywhere`: canonical names appearing verbatim (lower-cased
containment); Python `max(hits, key=len)` keeps the first of equal length. -/
def extract_unit_anywhere (page_text : String) : Option String :=
  let low := pyLower page_text.toList
  let hits := unit_order.filter (fun u => containsSub low (pyLower u.toList))
  hits.foldl (fun acc u =>
    match acc with
    | none => some u
    | some v => if u.length > v.length then some u else acc) none

/-- `page_starts_with_unit`: try the first 1–3 stripped lines joined. -/
def page_starts_with_unit (page_text : String) : Option String :=
  let lines := pageLines page_text
  match lines with
  | [] => none
  | _ =>
    ([1, 2, 3].map fun span =>
      if span ≤ lines.length then
        let cand := canonicalize_unit (String.mk (joinWith " ".toList
          (lines.take span)))
        if cand ∈ unit_order then some cand else none
      else none).foldl (fun acc o => acc <|> o) none

/-- `lookahead_unit_start` with `max_ahead = 1` as called by the main loop:
`pagesAfter` is the list of pages following the current one. -/
def lookahead_unit_start (pagesAfter : List String) (max_ahead : Nat) :
    Option String :=
  match pagesAfter, max_ahead with
  | [], _ => none
  | _, 0 => none
  | nxt :: rest, j + 1 =>
    match page_starts_with_unit nxt with
    | some u => some u
    | none => lookahead_unit_start rest j

/-- `internships?\s*-\s*compensation` (`re.I`). -/
def chartP1 : RE :=
  cat [litI "internship", opt (chrI 's'), star wsC, chr '-', star wsC,
       litI "compensation"]

/-- `\b(?:yes|no|other|paid|unpaid)\b\s*\d+(?:\.\d+)?\s*%?` (`re.I`). -/
def chartP2 : RE :=
  cat [.wb, altL [litI "yes", litI "no", litI "other", litI "paid",
        litI "unpaid"], .wb, star wsC, plus digitC,
       opt (cat [chr '.', plus digitC]), star wsC, opt (chr '%')]

/-- `\d+(?:\.\d+)?\s*%` -/
def chartP3 : RE :=
  cat [plus digitC, opt (cat [chr '.', plus digitC]), star wsC, chr '%']

/-- `\b(?:yes|no|other)\b` (`re.I`). -/
def chartP4 : RE :=
  cat [.wb, altL [litI "yes", litI "no", litI "other"], .wb]

/-- `strip_chart_artifacts`. -/
def strip_chart_artifacts (text : List Char) : List Char :=
  let t := normalize_whitespace text
  let t := reSub chartP1 " ".toList t
  let t := reSub chartP2 " ".toList t
  let t := reSub chartP3 " ".toList t
  let t := reSub chartP4 " ".toList t
  normalize_whitespace t

/-- `SENT_GAP = (?:(?![.?!]).){0,260}?` -/
def SENT_GAP : RE :=
  .rep true 0 (some 260)
    (.seq (.nla (.cls (fun c => c = '.' || c = '?' || c = '!'))) dotC)

/-- `\d+(?:\.\d+)?` wrapped in capture group `i`. -/
def numGrp (i : Nat) : RE :=
  .grp i (cat [plus digitC, opt (cat [chr '.', plus digitC])])

/-- `[\d,]+` wrapped in capture group `i`. -/
def countGrp (i : Nat) : RE :=
  .grp i (plus (.cls fun c => isPyDigit c || c = ','))

/-- `(?!\s*%)` -/
def notPct : RE := .nla (cat [star wsC, chr '%'])

/-- Common prefix of both wage patterns:
`\b(?:of|for)\s+(?:the\s+)?(?P<n>[\d,]+)\s+(?:internship\s+)?experiences\b`
`{SENT_GAP}\b(?:that\s+)?(?:paid|include(?:d)?|with)\b{SENT_GAP}\bhourly\b`
`{SENT_GAP}\b(?:wage|rate)\b` (all `re.I`, `n` = group 1). -/
def wagePrefix : RE :=
  cat [.wb, altL [litI "of", litI "for"], plus wsC,
       opt (cat [litI "the", plus wsC]), countGrp 1, plus wsC,
       opt (cat [litI "internship", plus wsC]), litI "experiences", .wb,
       SENT_GAP, .wb, opt (cat [litI "that", plus wsC]),
       altL [litI "paid", cat [litI "include", opt (chrI 'd')], litI "with"],
       .wb, SENT_GAP, .wb, litI "hourly", .wb, SENT_GAP, .wb,
       altL [litI "wage", litI "rate"], .wb]

/-- First wage pattern: `... {SENT_GAP}(?:average|mean)\b.*?\$?\s*`
`(?P<avg>\d+(?:\.\d+)?)(?!\s*%){SENT_GAP}\bmedian\b.*?\$?\s*`
`(?P<med>\d+(?:\.\d+)?)(?!\s*%)` (`avg` = group 2, `med` = group 3). -/
def WAGE_PATTERN_1 : RE :=
  cat [wagePrefix,
       SENT_GAP, altL [litI "average", litI "mean"], .wb,
       lazyStar dotC, opt (chr '$'), star wsC, numGrp 2, notPct,
       SENT_GAP, .wb, litI "median", .wb,
       lazyStar dotC, opt (chr '$'), star wsC, numGrp 3, notPct]

/-- Second wage pattern (median before average; same group conventions). -/
def WAGE_PATTERN_2 : RE :=
  cat [wagePrefix,
       SENT_GAP, .wb, litI "median", .wb,
       lazyStar dotC, opt (chr '$'), star wsC, numGrp 3, notPct,
       SENT_GAP, altL [litI "average", litI "mean"], .wb,
       lazyStar dotC, opt (chr '$'), star wsC, numGrp 2, notPct]

/-- `ONE_WAGE_RE` (`re.I`, `w` = group 1). -/
def ONE_WAGE_RE : RE :=
  cat [.wb, altL [litI "one", litI "1"], plus wsC, litI "experience", .wb,
       lazyStar dotC, .wb, litI "paid", .wb, lazyStar dotC, .wb,
       litI "hourly", .wb, lazyStar dotC, .wb,
       altL [litI "wage", litI "rate"], .wb, lazyStar dotC, opt (chr '$'),
       star wsC, numGrp 1, .wb, lazyStar dotC, .wb, litI "per", plus wsC,
       litI "hour", .wb]

/-- `TOTAL_EXPERIENCES_RE` (`re.I`, `t` = group 1). -/
def TOTAL_EXPERIENCES_RE : RE :=
  cat [.wb, opt (cat [litI "a", plus wsC]), litI "total", plus wsC,
       litI "of", plus wsC, countGrp 1, plus wsC, litI "internship",
       plus wsC, litI "experience", opt (chrI 's'), plus wsC,
       altL [litI "were", litI "was"], plus wsC, litI "reported", .wb]

/-- Result of `parse_metrics` (the dict
`{"n": ..., "avg": ..., "med": ..., "priority": ...}`). -/
structure Metrics where
  n : Nat
  avg : Option ℚ
  med : Option ℚ
  priority : Nat
deriving DecidableEq, Repr

/-- The `for pat in WAGE_PATTERNS` loop of `parse_metrics` (a failed
bounds check `continue`s to the next pattern). -/
def tryWagePatterns : List RE → List Char → Option Metrics
  | [], _ => none
  | p :: ps, cleaned =>
    match reSearch p cleaned with
    | none => tryWagePatterns ps cleaned
    | some st =>
      match to_int (capGet st 1), to_float (capGet st 2),
            to_float (capGet st 3) with
      | some n, some avg, some med =>
        if 0 < avg && avg < 100 && 0 < med && med < 100 then
          some ⟨n, some avg, some med, 2⟩
        else tryWagePatterns ps cleaned
      | _, _, _ => tryWagePatterns ps cleaned

/-- `parse_metrics`. -/
def parse_metrics (page_text : String) : Option Metrics :=
  let cleaned := strip_chart_artifacts page_text.toList
  let low := pyLower cleaned
  let wageGate :=
    containsSub low "hourly".toList &&
    (containsSub low "wage".toList || containsSub low "rate".toList) &&
    containsSub low "median".toList &&
    (containsSub low "average".toList || containsSub low "mean".toList)
  let wageResult :=
    if wageGate then
      match tryWagePatterns [WAGE_PATTERN_1, WAGE_PATTERN_2] cleaned with
      | some m => some m
      | none =>
        match reSearch ONE_WAGE_RE cleaned with
        | some st =>
          match to_float (capGet st 1) with
          | some w =>
            if 0 < w && w < 100 then some ⟨1, some w, some w, 2⟩ else none
          | none => none
        | none => none
    else none
  match wageResult with
  | some m => some m
  | none =>
    if containsSub low "internship".toList &&
       containsSub low "total".toList &&
       containsSub low "reported".toList then
      match reSearch TOTAL_EXPERIENCES_RE cleaned with
      | some st =>
        match to_int (capGet st 1) with
        | some t => if 0 < t then some ⟨t, none, none, 1⟩ else none
        | none => none
      | none => none
    else none

/-- An output row of the main page loop (the dict appended to `rows`,
with `page` the 1-based page number). -/
structure Row where
  year : Nat
  unit : String
  n : Nat
  avg : Option ℚ
  med : Option ℚ
  pdf : String
  page : Nat
  priority : Nat
deriving DecidableEq, Repr

/-- Python `round(x, 2)` (banker's rounding), computed exactly on
rationals.  Every wage the script extracts has at most two decimal digits,
on which rounding is the identity, so binary floating-point artifacts of
CPython's `round` cannot be observed on this corpus. -/
def pyRound2 (q : ℚ) : ℚ :=
  let f : ℤ := ⌊q * 100⌋
  let r : ℚ := q * 100 - f
  let n : ℤ :=
    if r < 1/2 then f
    else if 1/2 < r then f + 1
    else if f % 2 = 0 then f else f + 1
  (n : ℚ) / 100

/-- The per-document page loop (lines 326–374 of the script): `pageNo` is
the 1-based number of the current page and `current` the carried
`current_unit` state.  Lookahead inspects only the pages that follow the
current one, as `lookahead_unit_start(pdf, page_index, max_ahead=1)` does. -/
def pagesLoop (year : Nat) (file : String) :
    Nat → Option String → List String → List Row
  | _, _, [] => []
  | pageNo, current, raw :: restPages =>
    if (pyStrip raw.toList).isEmpty then
      pagesLoop year file (pageNo + 1) current restPages
    else
      let page_unit := (extract_unit_candidate raw) <|>
        (extract_unit_from_footer raw) <|> (extract_unit_anywhere raw)
      let current1 := if page_unit.isSome then page_unit else current
      match parse_metrics raw with
      | none => pagesLoop year file (pageNo + 1) current1 restPages
      | some m =>
        let (unit, current2) :=
          match page_unit with
          | some u => (u, current1)
          | none =>
            match lookahead_unit_start restPages 1 with
            | some la => (la, some la)
            | none => (current1.getD "University-wide", current1)
        let unit := canonicalize_unit unit
        { year := year, unit := unit, n := m.n,
          avg := m.avg.map pyRound2, med := m.med.map pyRound2,
          pdf := file, page := pageNo, priority := m.priority } ::
          pagesLoop year file (pageNo + 1) current2 restPages

/-- One document of the batch: skip it when no year can be inferred from
the filename, else run the page loop with `current_unit = None`. -/
def processDoc (file : String) (pages : List String) : List Row :=
  match infer_year_from_filename file with
  | none => []
  | some year => pagesLoop year file 1 none pages

/-- `sorted({infer_year_from_filename(f) for f in pdf_files if ... })`. -/
def years_in_folder (pdf_files : List String) : List Nat :=
  ((pdf_files.filterMap infer_year_from_filename).dedup).mergeSort (· ≤ ·)

/-- The key ordering of
`sort_values(["Year","Unit","priority","page"], ascending=[T,T,F,T])`. -/
def rowSortLE (a b : Row) : Bool :=
  if a.year ≠ b.year then a.year < b.year
  else if a.unit ≠ b.unit then a.unit < b.unit
  else if a.priority ≠ b.priority then b.priority < a.priority
  else a.page ≤ b.page

/-- `drop_duplicates(["Year","Unit"], keep="first")`. -/
def dropDupFirst : List Row → List (Nat × String) → List Row
  | [], _ => []
  | r :: rest, seen =>
    if (r.year, r.unit) ∈ seen then dropDupFirst rest seen
    else r :: dropDupFirst rest ((r.year, r.unit) :: seen)

/-- Deduplication per (Year, Unit): sort by year, unit, priority
descending, page ascending, then keep the first of each (Year, Unit).
(`sort_values` ties beyond all four keys cannot influence the kept
(Year, Unit) representative's key columns.) -/
def dedupRows (rows : List Row) : List Row :=
  dropDupFirst (rows.mergeSort rowSortLE) []

/-- A row of the final output grid (columns Unit, Year, N, Average,
Median). -/
structure GridRow where
  unit : String
  year : Nat
  n : Option Nat
  avg : Option ℚ
  med : Option ℚ
deriving DecidableEq, Repr

/-- Position of a unit in the `Unit_cat` categorical ordering. -/
def unitIdx (u : String) : Nat := unit_order.indexOf u

/-- The key ordering of `sort_values(["Year","Unit_cat"])`. -/
def gridLE (a b : GridRow) : Bool :=
  a.year < b.year || (a.year = b.year && unitIdx a.unit ≤ unitIdx b.unit)

/-- The reindexed cell for one `(year, unit)` key of the full product: the
unique deduplicated record's values, or an all-empty row (`reindex`
requires the deduplicated key to be unique, so the first matching record
is the only one). -/
def gridCell (recs : List Row) (p : Nat × String) : GridRow :=
  match recs.find? (fun r => r.year = p.1 && r.unit = p.2) with
  | some r =>
    { unit := p.2, year := p.1, n := some r.n, avg := r.avg, med := r.med }
  | none =>
    { unit := p.2, year := p.1, n := none, avg := none, med := none }

/-- Grid assembly (lines 397–418): reindex the deduplicated records
against `MultiIndex.from_product([years_in_folder, unit_order])` (missing
pairs become empty rows), then sort by (Year, Unit_cat). -/
def buildGrid (years : List Nat) (recs : List Row) : List GridRow :=
  let full := years.flatMap (fun y => unit_order.map (fun u => (y, u)))
  (full.map (gridCell recs)).mergeSort gridLE

/-- The whole week-3 batch over a directory model (filename, page texts):
filter to `.pdf` files, process in sorted filename order, deduplicate and
assemble the grid. -/
def runWeek3 (folder : List (String × List String)) : List GridRow :=
  let pdfs := (folder.filter (fun p =>
    endsWith (pyLower p.1.toList) ".pdf".toList)).mergeSort
    (fun a b => decide (a.1 ≤ b.1))
  let rows := pdfs.flatMap (fun p => processDoc p.1 p.2)
  buildGrid (years_in_folder (pdfs.map Prod.fst)) (dedupRows rows)

end W3

/-! ## `employment_search_week2.py` -/

namespace W2

/-- `pct_to_num`: `""` ↦ −1.0, `"<…%"` ↦ 0.5, else `float(pct.rstrip("%"))`
with −1.0 on a parse failure. -/
def pct_to_num (pct0 : String) : ℚ :=
  let pct := pyStrip pct0.toList
  if pct.isEmpty then -1
  else if startsWith pct "<".toList && endsWith pct "%".toList then 1/2
  else
    match pyFloat (pyRstripChar '%' pct) with
    | some v => v
    | none => -1

/-- `normalize_unit` (week-2 version). -/
def normalize_unit (u0 : String) : String :=
  let u := pyStrip u0.toList
  let u := reSub wsPlus " ".toList u
  let u := pyReplace (pyReplace u "–".toList "-".toList) "—".toList "-".toList
  let low := pyLower u
  if containsSub low "university of maryland".toList &&
     containsSub low "overall".toList then "University-wide"
  else if reSearchB univWideRE low then "University-wide"
  else if low = "university of maryland".toList then "University-wide"
  else String.mk u

/-- The week-2 `unit_lookup` dictionary. -/
def unit_lookup : List (String × String) :=
  let d := unit_order.map (fun u => (unit_key u, u))
  let d := dictInsert d (unit_key "Phillip Merrill College of Journalism")
    "Philip Merrill College of Journalism"
  let d := dictInsert d (unit_key "Philip Merrill College of Journalism")
    "Philip Merrill College of Journalism"
  let d := dictInsert d (unit_key "Robert H. Smith School of Business")
    "The Robert H. Smith School of Business"
  let d := dictInsert d (unit_key "Robert H Smith School of Business")
    "The Robert H. Smith School of Business"
  let d := dictInsert d (unit_key "Office of Undergraduate Studies")
    "Undergraduate Studies"
  let d := dictInsert d (unit_key "Division of Undergraduate Studies")
    "Undergraduate Studies"
  let d := dictInsert d (unit_key "College of Information Studies")
    "College of Information"
  d

/-- `canonicalize_unit` (week-2 version): normalize, then exact alias-key
lookup, else return the normalized string. -/
def canonicalize_unit (u0 : String) : String :=
  let u := normalize_unit u0
  match dictGet unit_lookup (unit_key u) with
  | some c => c
  | none => u

/-- `method_key`: the ordered keyword cascade mapping a raw method label to
its canonical metric column (first matching rule wins, `None` = dropped). -/
def method_key (s0 : String) : Option String :=
  let s := pyStrip (reSub wsPlus " ".toList (pyLower s0.toList))
  let has := fun (t : String) => containsSub s t.toList
  if has "intern" || has "co-op" || has "coop" then
    some "Previous Internship/Co-op %"
  else if has "career fair" || has "career fairs" then
    (if has "non-umd" || has "non umd" || has "off campus" ||
        has "off-campus" then some "Career Fairs Off Campus %"
     else if has "umd" then some "Career Fairs On Campus %"
     else some "Career Fairs On Campus %")
  else if (has "non-umd" || has "non umd") &&
          (has "online" || has "job site" || has "jobsite" ||
           has "company website" || has "company site" ||
           has "social media") then
    some "Non-UMD Online Job Site %"
  else if (has "umd online job site" || has "handshake" || has "hiresmith" ||
           has "careers4terps") && !(has "non-umd") && !(has "non umd") then
    some "UMD Online Job Site %"
  else if has "interview" &&
          (has "on campus" || has "on-campus" || has "campus/virtual" ||
           has "virtual") then
    some "On-campus Interviews %"
  else if (has "family" || has "friends") && (has "contact" || has "contacts")
      then some "Contacts Family/Friends %"
  else if (has "faculty" || has "staff") && (has "contact" || has "contacts")
      then some "Contacts Faculty %"
  else if has "currently employed" then some "Currently Employed with Org %"
  else if has "newspaper" then some "Newspaper %"
  else if pyStrip s = "other".toList then some "Other %"
  else none

/-- The `best_for_method` accumulation (lines 360–368): keyed insertion in
Python-dict order; a later pair replaces an earlier one for the same method
key only when its `pct_to_num` value is strictly greater. -/
def best_for_method (parsed : List (String × String)) :
    List (String × (String × String)) :=
  parsed.foldl (fun best lp =>
    match method_key lp.1 with
    | none => best
    | some mk =>
      match best.find? (fun q => q.1 = mk) with
      | none => best ++ [(mk, lp)]
      | some q =>
        if pct_to_num lp.2 > pct_to_num q.2.2 then
          best.map (fun q' => if q'.1 = mk then (mk, lp) else q')
        else best) []

/-- `infer_year_from_filename` (week-2 version: the final fallback takes
the MAXIMUM year token). -/
def infer_year_from_filename (fname : String) : Option Nat :=
  let s := fname.toList
  match reMatch W3.leadYearRE s with
  | some st => (capGet st 1).map pyInt
  | none =>
    match reSearch W3.yearRangeRE s with
    | some st => (capGet st 2).map pyInt
    | none =>
      match (reFindall W3.yearTokenRE s).map pyInt with
      | [] => none
      | y :: ys => some (ys.foldl max y)

end W2

/-! ## `outcome_extraction_week1.py` -/

namespace W1

/-- `percent_re = ^<?\d+(?:\.\d+)?%$` (used via `.match`, and since the
pattern ends in `$`, as a full-string test). -/
def percent_re : RE :=
  cat [.bos, opt (chr '<'), plus digitC, opt (cat [chr '.', plus digitC]),
       chr '%', .eos]

/-- `no_percent_re = ^<?\d+(?:\.\d+)?$` -/
def no_percent_re : RE :=
  cat [.bos, opt (chr '<'), plus digitC, opt (cat [chr '.', plus digitC]),
       .eos]

/-- `clean`: `None` ↦ `""`, else `str(x).replace("\n", " ").strip()`. -/
def clean (x : Option String) : List Char :=
  match x with
  | none => []
  | some s => pyStrip (pyReplace s.toList "\n".toList " ".toList)

/-- `is_count`. -/
def is_count (x : Option String) : Bool :=
  pyIsDigit (pyReplace (clean x) ",".toList [])

/-- `is_percent`. -/
def is_percent (x : Option String) : Bool :=
  (reMatch percent_re (pyReplace (clean x) " ".toList [])).isSome

/-- `is_label`. -/
def is_label (x : Option String) : Bool :=
  let s := clean x
  if s.isEmpty then false
  else if is_count (some (String.mk s)) || is_percent (some (String.mk s))
    then false
  else
    let low := pyLower s
    if low = "outcome".toList || low = "#".toList || low = "%".toList then
      false
    else if containsSub low "reported outcomes".toList ||
            containsSub low "graduate outcomes".toList then false
    else true

/-- `find_label`: the longest label-like cell (Python `max(..., key=len)`
keeps the first among equals). -/
def find_label (row : List (Option String)) : List Char :=
  let labels := (row.filter is_label).map clean
  (labels.foldl (fun acc l =>
    match acc with
    | none => some l
    | some v => if l.length > v.length then some l else acc) none).getD []

/-- `find_count`: the first count-like cell. -/
def find_count (row : List (Option String)) : List Char :=
  match row.find? is_count with
  | some c => clean c
  | none => []

/-- `find_percent`: the first cell matching the percent pattern, or a bare
numeric cell immediately followed by a lone `%` cell. -/
def find_percent : List (Option String) → List Char
  | [] => []
  | cell :: rest =>
    let c := pyReplace (clean cell) " ".toList []
    if (reMatch percent_re c).isSome then c
    else if (reMatch no_percent_re c).isSome then
      match rest with
      | nxt :: _ =>
        if pyStrip (clean nxt) = "%".toList then c ++ "%".toList
        else find_percent rest
      | [] => find_percent rest
    else find_percent rest

/-- The `bad_contains` phrase list of `get_page_title`. -/
def bad_contains : List String :=
  ["survey response rate", "knowledge rate", "total placement",
   "reported outcomes", "graduate outcomes", "as of", "data from",
   "had been collected", "via the survey", "between"]

/-- `is_good_title` (the inner predicate of `get_page_title`). -/
def is_good_title (ln : List Char) : Bool :=
  let low := pyStrip (pyLower ln)
  if low = "maryland".toList then false
  else if bad_contains.any (fun b => containsSub low b.toList) then false
  else if containsSub ln "%".toList || containsSub ln "#".toList then false
  else if 80 < ln.length then false
  else if 2 ≤ (ln.filter isPyDigit).length && !(reSearchB univWideRE low)
    then false
  else ln.any isPyAlpha

/-- The title-extension loop of `get_page_title`: append up to three
following lines while they are good titles of length ≤ 60. -/
def titleExtend : Nat → List (List Char) → List (List Char)
  | 0, _ => []
  | _, [] => []
  | n + 1, ln :: rest =>
    if is_good_title ln && ln.length ≤ 60 then ln :: titleExtend n rest
    else []

/-- `get_page_title` (on the page's extracted text). -/
def get_page_title (text : String) : String :=
  let lines := ((splitLines text.toList).map pyStrip).filter (fun l =>
    !l.isEmpty)
  match (lines.take 25).findIdx? is_good_title with
  | none => ""
  | some start_idx =>
    match lines.drop start_idx with
    | [] => ""
    | first :: rest =>
      String.mk (joinWith " ".toList (first :: titleExtend 3 rest))

/-- One scored row of `is_outcomes_table`: does the row yield a label, a
count and a percent simultaneously? -/
def rowFull (r : List (Option String)) : Bool :=
  !(find_label r).isEmpty && !(find_count r).isEmpty &&
  !(find_percent r).isEmpty

/-- `is_outcomes_table`: score the first 15 rows and gate on an outcome
keyword among the collected labels; returns `(qualifies, score)`. -/
def is_outcomes_table (table : List (List (Option String))) : Bool × Nat :=
  let scored := (table.take 15).filter (fun r => !r.isEmpty)
  let labels := (scored.map (fun r => pyLower (find_label r))).filter
    (fun l => !l.isEmpty)
  let score := scored.countP rowFull
  if score < 3 then (false, score)
  else if !(labels.any fun l =>
      containsSub l "employed".toList || containsSub l "unplaced".toList ||
      containsSub l "unresolved".toList) then (false, score)
  else (true, score)

/-- A parsed outcomes-table record (the dict
`{"outcome": ..., "count": ..., "percent": ...}`). -/
structure OutRec where
  outcome : String
  count : String
  percent : String
deriving DecidableEq, Repr

/-- `\b20\d{2}\s+graduates\b` (`re.I`). -/
def yearGraduatesRE : RE :=
  cat [.wb, lit "20", digitC, digitC, plus wsC, litI "graduates", .wb]

/-- `\s{2,}` -/
def twoSpacesRE : RE := .rep false 2 none wsC

/-- The label-cleaning prelude of `parse_outcomes_table`: strip the
irrelevant phrases (case-insensitively), the `20.. graduates` marker, and
runs of spaces. -/
def cleanParsedLabel (label0 : List Char) : List Char :=
  let phrases : List String :=
    ["reported outcomes of graduates", "reported outcomes of",
     "graduate outcomes"]
  let label := phrases.foldl (fun lab jp =>
    if containsSub (pyLower lab) jp.toList then
      pyStrip (reSub (litI jp) [] lab)
    else lab) label0
  let label := pyStrip (reSub yearGraduatesRE [] label)
  pyStrip (reSub twoSpacesRE " ".toList label)

/-- Parser state of `parse_outcomes_table`: the accumulated records in
reverse order (`last` is always the head, when any record exists) and the
`pending_label` buffer. -/
structure PTState where
  acc : List OutRec
  pending : List Char

/-- One iteration of the `parse_outcomes_table` row loop. -/
def parseRowStep (st : PTState) (r : List (Option String)) : PTState :=
  if r.isEmpty then st
  else
    let label := cleanParsedLabel (find_label r)
    let cnt := find_count r
    let pct := find_percent r
    if !label.isEmpty && cnt.isEmpty && pct.isEmpty then
      -- fragment row: extend the previous record's outcome, else pend it
      match st.acc with
      | last :: older =>
        { st with acc :=
            { last with outcome := String.mk (pyStrip
                (last.outcome.toList ++ " ".toList ++ label)) } :: older }
      | [] =>
        { st with pending := pyStrip (st.pending ++ " ".toList ++ label) }
    else
      let (label, pending) :=
        if label.isEmpty && !st.pending.isEmpty then (st.pending, [])
        else if !label.isEmpty && !st.pending.isEmpty then
          (pyStrip (st.pending ++ " ".toList ++ label), [])
        else (label, st.pending)
      if label.isEmpty then { st with pending := pending }
      else if pyLower label = "outcome".toList then { st with pending }
      else
        let is_total := pyLower (pyStrip label) = "total".toList
        let is_not_seeking :=
          startsWith (pyLower (pyStrip label)) "not seeking".toList
        if !cnt.isEmpty && (!pct.isEmpty || is_total || is_not_seeking) then
          { acc := ⟨String.mk label, String.mk cnt, String.mk pct⟩ :: st.acc,
            pending := pending }
        else if !label.isEmpty && cnt.isEmpty then
          { st with pending := pyStrip (pending ++ " ".toList ++ label) }
        else { st with pending }

/-- `parse_outcomes_table`. -/
def parse_outcomes_table (table : List (List (Option String))) :
    List OutRec :=
  (table.foldl parseRowStep ⟨[], []⟩).acc.reverse

/-- `\bTOTAL\b\s+([\d,]+)(?:\s+(\d+(\.\d+)?%))?` (`re.I`; group 2 may be
absent, in which case the percent defaults to `""`). -/
def totalRE : RE :=
  cat [.wb, litI "total", .wb, plus wsC,
       .grp 1 (plus (.cls fun c => isPyDigit c || c = ',')),
       opt (cat [plus wsC,
         .grp 2 (cat [plus digitC, opt (cat [chr '.', plus digitC]),
                      chr '%'])])]

/-- `\bNot\s+Seeking\b\s+([\d,]+)\b` (`re.I`). -/
def notSeekingRE : RE :=
  cat [.wb, litI "not", plus wsC, litI "seeking", .wb, plus wsC,
       .grp 1 (plus (.cls fun c => isPyDigit c || c = ',')), .wb]

/-- `get_total_and_not_seeking`. -/
def get_total_and_not_seeking (page_text : String) : List OutRec :=
  let fromTotal :=
    match reSearch totalRE page_text.toList with
    | some st =>
      [⟨"TOTAL", String.mk ((capGet st 1).getD []),
        String.mk ((capGet st 2).getD [])⟩]
    | none => []
  let fromNS :=
    match reSearch notSeekingRE page_text.toList with
    | some st => [⟨"Not Seeking", String.mk ((capGet st 1).getD []), ""⟩]
    | none => []
  fromTotal ++ fromNS

/-- A page of a report document as seen by the week-1 loop: its extracted
text and its extracted tables (cells may be `None`). -/
structure Page where
  text : String
  tables : List (List (List (Option String)))

/-- A raw output row of the week-1 page loop. -/
structure W1Row where
  pdf : String
  title : String
  outcome : String
  count : String
  percent : String
deriving DecidableEq, Repr

/-- The qualifying tables of a page, paired with their scores (the
`candidates` list of the main loop). -/
def candidates (tables : List (List (List (Option String)))) :
    List (Nat × List (List (Option String))) :=
  (tables.filter (fun t => !t.isEmpty)).filterMap
    (fun t =>
      let cs := is_outcomes_table t
      if cs.1 then some (cs.2, t) else none)

/-- The body of the week-1 page loop (lines 350–386): pages with no table
are skipped; qualifying tables are scored, the best (stable sort, ties keep
the first encountered) is parsed; TOTAL / Not Seeking are recovered from
the page text when the table did not yield them; each record is attributed
to THIS page's extracted title (the script carries no unit state across
pages). -/
def processPage (file : String) (pg : Page) : List W1Row :=
  if pg.tables.isEmpty then []
  else
    let page_title := get_page_title pg.text
    match (candidates pg.tables).mergeSort (fun a b => decide (b.1 ≤ a.1)) with
    | [] => []
    | best :: _ =>
      let parsed := parse_outcomes_table best.2
      let existing := parsed.map (fun p => pyLower p.outcome.toList)
      let extras := (get_total_and_not_seeking pg.text).filter (fun e =>
        !(existing.contains (pyLower e.outcome.toList)))
      (parsed ++ extras).map (fun it =>
        ⟨file, page_title, it.outcome, it.count, it.percent⟩)

/-- The week-1 per-document loop: pages are processed independently (no
carried state). -/
def processDoc (file : String) (pages : List Page) : List W1Row :=
  pages.flatMap (processPage file)

/-- `normalize_unit` (week-1 version). -/
def normalize_unit (u0 : String) : String :=
  let u := pyStrip u0.toList
  let u := reSub wsPlus " ".toList u
  let u := pyReplace (pyReplace u "–".toList "-".toList) "—".toList "-".toList
  let low := pyLower u
  if reSearchB univWideRE low then "University-wide"
  else if containsSub low "university of maryland".toList &&
          (containsSub low "university-wide".toList ||
           containsSub low "university wide".toList ||
           containsSub low "overall".toList ||
           containsSub low "graduate survey report".toList) then
    "University-wide"
  else if low = "university of maryland".toList then "University-wide"
  else String.mk u

/-- The week-1 `unit_lookup` (only the Journalism aliases are added). -/
def unit_lookup : List (String × String) :=
  let d := unit_order.map (fun u => (unit_key u, u))
  let d := dictInsert d (unit_key "Phillip Merrill College of Journalism")
    "Philip Merrill College of Journalism"
  let d := dictInsert d (unit_key "Philip Merrill College of Journalism")
    "Philip Merrill College of Journalism"
  d

/-- `unit_lookup_items`: the dictionary items sorted by key length,
longest first (Python `sorted` is stable). -/
def unit_lookup_items : List (String × String) :=
  unit_lookup.mergeSort (fun a b => decide (b.1.length ≤ a.1.length))

/-- `canonicalize_unit` (week-1 version): exact alias-key lookup, then a
looser substring pass over the alias keys (longest keys first). -/
def canonicalize_unit (u0 : String) : String :=
  let u := normalize_unit u0
  let k := unit_key u
  match dictGet unit_lookup k with
  | some c => c
  | none =>
    match unit_lookup_items.find? (fun p =>
        containsSub k.toList p.1.toList) with
    | some p => p.2
    | none => u

/-- `pct_to_float`: `""` ↦ NaN (modelled as `none`), `"<…%"` ↦ 1.0, else
`float(x[:-1])` with NaN (`none`) on failure. -/
def pct_to_float (x0 : String) : Option ℚ :=
  let x := pyStrip x0.toList
  if x.isEmpty then none
  else if startsWith x "<".toList && endsWith x "%".toList then some 1
  else pyFloat (x.take (x.length - 1))

end W1

/-! ## `top_employers_StretchgGoals.py` -/

namespace TE

/-- `HEADING_RE = \bTOP\s+EMPLOYERS\b` (`re.I`). -/
def HEADING_RE : RE :=
  cat [.wb, litI "top", plus wsC, litI "employers", .wb]

/-- `STOP_RE` (`re.I`). -/
def STOP_RE : RE :=
  altL [cat [litI "geographic", plus wsC, litI "distribution"],
        cat [litI "top", plus wsC, litI "10"],
        cat [litI "continuing", plus wsC, litI "education"],
        cat [litI "out", plus wsC, litI "of", plus wsC, litI "classroom"],
        cat [litI "starting", plus wsC, litI "a", plus wsC,
             litI "business"],
        litI "service/volunteer",
        cat [litI "internship", plus wsC, litI "participation"]]

/-- `COUNT_LINE_RE = ^(?P<name>.+?)\s+(?P<count>\d[\d,]*)\s*$`
(group 1 = `name`). -/
def COUNT_LINE_RE : RE :=
  cat [.bos, .grp 1 (.rep true 1 none dotC), plus wsC,
       .grp 2 (cat [digitC, star (.cls fun c => isPyDigit c || c = ',')]),
       star wsC, .eos]

/-- `COUNT_ONLY_RE = ^\d[\d,]*\s*$` -/
def COUNT_ONLY_RE : RE :=
  cat [.bos, digitC, star (.cls fun c => isPyDigit c || c = ','),
       star wsC, .eos]

/-- `YEAR_RE = (20\d{2})` -/
def YEAR_RE : RE := .grp 1 (cat [lit "20", digitC, digitC])

/-- `normalize_line`. -/
def normalize_line (s : List Char) : List Char :=
  pyStrip (reSub wsPlus " ".toList (pyReplace s "\xa0".toList " ".toList))

/-- `year_from_filename`: the first 4-digit year token anywhere. -/
def year_from_filename (filename : String) : Option Nat :=
  match reSearch YEAR_RE filename.toList with
  | some st => (capGet st 1).map pyInt
  | none => none

/-- The line loop of `extract_top_employer`: state is `(collecting,
buffer)`; returns the first employer name found after the Top Employers
heading, `""` if a stop marker is reached or the lines run out. -/
def teGo : Bool → List Char → List (List Char) → String
  | _, _, [] => ""
  | collecting, buffer, ln :: rest =>
    if ln.isEmpty then teGo collecting buffer rest
    else if !collecting then
      if reSearchB HEADING_RE ln &&
         !(containsSub (pyUpper ln) "INTERNSHIP".toList) &&
         !(containsSub (pyUpper ln) "SAMPLE".toList) then
        teGo true [] rest
      else teGo false buffer rest
    else if reSearchB STOP_RE ln then ""
    else if reSearchB HEADING_RE ln ||
            startsWith (pyUpper ln) "REPORTED".toList ||
            startsWith (pyUpper ln) "TOP EMPLOYERS".toList then
      teGo true buffer rest
    else
      match reMatch COUNT_LINE_RE ln with
      | some st =>
        let name := normalize_line ((capGet st 1).getD [])
        if !buffer.isEmpty then
          String.mk (normalize_line (buffer ++ " ".toList ++ name))
        else String.mk name
      | none =>
        if !buffer.isEmpty && (reMatch COUNT_ONLY_RE ln).isSome then
          String.mk buffer
        else if ln.any isPyAlpha && !reSearchB STOP_RE ln then
          teGo true
            (if buffer.isEmpty then ln
             else normalize_line (pyStrip (buffer ++ " ".toList ++ ln)))
            rest
        else teGo true buffer rest

/-- `extract_top_employer` over the page texts of an opened document
(`max_pages = 25`; the collecting state persists across page breaks, so
the scan is equivalent to one pass over the normalized lines). -/
def extract_top_employer (pages : List String) : String :=
  teGo false []
    ((pages.take 25).flatMap fun t => (splitLines t.toList).map
      normalize_line)

/-- An output row (`{"Unit": ..., "Year": ..., "Employer Names": ...}`). -/
structure TERow where
  unit : String
  year : Nat
  employer : String
deriving DecidableEq, Repr

def UNIT_NAME : String := "University-wide"

/-- `filename.lower().endswith(".pdf")`. -/
def isPdfB (f : String) : Bool := endsWith (pyLower f.toList) ".pdf".toList

/-- One iteration of the directory-scan loop (lines 117–128). -/
def scanStep (reports : String) (acc : List Nat × List (Nat × String))
    (f : String) : List Nat × List (Nat × String) :=
  if isPdfB f then
    match year_from_filename f with
    | none => acc
    | some y =>
      (if y ∈ acc.1 then acc.1 else acc.1 ++ [y],
       if acc.2.any (fun p => p.1 = y) then acc.2
       else acc.2 ++ [(y, reports ++ "/" ++ f)])
  else acc

/-- The directory scan (lines 117–128): accumulate `years_found` (modelled
in first-seen order; only its sorted set is consumed) and `year_to_pdf`
(first file per year in listing order). -/
def scanFolder (reports : String) (listing : List String) :
    List Nat × List (Nat × String) :=
  listing.foldl (scanStep reports) ([], [])

/-- The body of the output loop (lines 131–144) for one year. -/
def rowForYear (exsts : String → Bool) (pdfContent : String → List String)
    (ytp : List (Nat × String)) (year : Nat) : TERow :=
  match ytp.find? (fun p => p.1 = year) with
  | none => ⟨UNIT_NAME, year, "N/A"⟩
  | some p =>
    if p.2 = "" || !exsts p.2 then ⟨UNIT_NAME, year, "N/A"⟩
    else
      let top_emp := extract_top_employer (pdfContent p.2)
      ⟨UNIT_NAME, year, if top_emp = "" then "" else top_emp⟩

/-- The output loop (lines 131–144), over a filesystem model: `exsts` is
`os.path.exists` and `pdfContent` maps a path to its page texts (both
external collaborators). -/
def runTopEmployers (reports : String) (listing : List String)
    (exsts : String → Bool) (pdfContent : String → List String) :
    List TERow :=
  let scanned := scanFolder reports listing
  (scanned.1.mergeSort (· ≤ ·)).map
    (rowForYear exsts pdfContent scanned.2)

end TE

/-! ## Helper lemmas -/

set_option maxRecDepth 40000

/-- The default unit string is fixed by canonicalization. -/
theorem canonicalize_univ_wide :
    W3.canonicalize_unit "University-wide" = "University-wide" := by
  with_unfolding_all rfl

theorem lookahead_nil : W3.lookahead_unit_start [] 1 = none := rfl

/-! ## Claims -/

/-- C2, counterexample: on the synthetic sentence with the average replaced
by 250, `parse_metrics` yields no metric at all — not, as claimed, the
total-count-only fallback record (n = 120, unknown avg/med, priority 1) —
because the sentence does not contain the `a total of … were reported`
phrasing the fallback requires. -/
theorem C2_counterexample :
    W3.parse_metrics "Of the 120 internship experiences that included an hourly wage, the average was $250 and the median was $17.00" = none ∧
    W3.parse_metrics "Of the 120 internship experiences that included an hourly wage, the average was $250 and the median was $17.00" ≠
      some { n := 120, avg := none, med := none, priority := 1 } := by
  have h : W3.parse_metrics "Of the 120 internship experiences that included an hourly wage, the average was $250 and the median was $17.00" = none := by
    with_unfolding_all rfl
  exact ⟨h, by simp [h]⟩

/-- C2 (amended): the wage-pattern cascade on the synthetic sentence
returns n = 120, avg = 18.50, med = 17.00 with the high-quality tag
(priority 2); on the same sentence with the average replaced by 250 the
pattern's plausibility bounds reject the match and, since the sentence
lacks the total-count phrasing, the cascade yields no metric (None); the
total-count-only fallback applies to text containing
"a total of N internship experiences were reported" and yields the count
with unknown avg/med and the low-quality tag (priority 1). -/
theorem C2_wage_cascade :
    W3.parse_metrics "Of the 120 internship experiences that included an hourly wage, the average was $18.50 and the median was $17.00" =
      some { n := 120, avg := some (37/2), med := some 17, priority := 2 } ∧
    W3.parse_metrics "Of the 120 internship experiences that included an hourly wage, the average was $250 and the median was $17.00" = none ∧
    W3.parse_metrics "A total of 120 internship experiences were reported." =
      some { n := 120, avg := none, med := none, priority := 1 } := by
  refine ⟨?_, ?_, ?_⟩ <;> with_unfolding_all rfl

/-- C1, counterexample: a page whose data is extracted (the total-count
metric parses) but on which no unit resolves — not from the page itself,
not from its footer, not anywhere on the page, with no lookahead page and
no carried state — still emits a row, attributed to the default unit
"University-wide", in the internship-wage pipeline. -/
theorem C1_counterexample :
    W3.extract_unit_candidate "A total of 120 internship experiences were reported." = none ∧
    W3.extract_unit_from_footer "A total of 120 internship experiences were reported." = none ∧
    W3.extract_unit_anywhere "A total of 120 internship experiences were reported." = none ∧
    (W3.processDoc "2019GraduationSurveyReport.pdf"
        ["A total of 120 internship experiences were reported."]).map
      (fun r => r.unit) = ["University-wide"] := by
  refine ⟨?_, ?_, ?_, ?_⟩ <;> with_unfolding_all rfl

/-- C1 (amended): in the internship-wage pipeline, a page whose metrics
parse but for which no unit is resolved by the page scan, the footer scan,
the anywhere-fallback, lookahead (no following page), or carried state is
NOT discarded: its record is attributed to the default unit
"University-wide". -/
theorem C1_default_unit (p file : String) (y : Nat) (m : W3.Metrics)
    (hc : W3.extract_unit_candidate p = none)
    (hf : W3.extract_unit_from_footer p = none)
    (ha : W3.extract_unit_anywhere p = none)
    (hm : W3.parse_metrics p = some m)
    (hy : W3.infer_year_from_filename file = some y)
    (hne : (pyStrip p.toList).isEmpty = false) :
    W3.processDoc file [p] =
      [{ year := y, unit := "University-wide", n := m.n,
         avg := m.avg.map W3.pyRound2, med := m.med.map W3.pyRound2,
         pdf := file, page := 1, priority := m.priority }] := by
  unfold W3.processDoc
  rw [hy]
  unfold W3.pagesLoop
  rw [hne, hc, hf, ha, hm]
  simp only [Bool.false_eq_true, if_false, Option.orElse_none,
    Option.none_orElse, Option.isSome_none, Option.getD_none,
    lookahead_nil, canonicalize_univ_wide]
  rfl

/-- C1 witness: the amended theorem applied to the concrete unresolved
page of the counterexample scenario. -/
theorem C1_default_unit_witness :
    W3.processDoc "2019GraduationSurveyReport.pdf"
      ["A total of 120 internship experiences were reported."] =
      [{ year := 2019, unit := "University-wide", n := 120,
         avg := none, med := none,
         pdf := "2019GraduationSurveyReport.pdf", page := 1,
         priority := 1 }] :=
  C1_default_unit "A total of 120 internship experiences were reported."
    "2019GraduationSurveyReport.pdf" 2019
    { n := 120, avg := none, med := none, priority := 1 }
    (by with_unfolding_all rfl) (by with_unfolding_all rfl)
    (by with_unfolding_all rfl) (by with_unfolding_all rfl)
    (by with_unfolding_all rfl) (by with_unfolding_all rfl)

/-- `foldl max` computes an upper bound that is the seed or a member. -/
theorem foldl_max_spec (l : List Nat) : ∀ a : Nat,
    (l.foldl max a = a ∨ l.foldl max a ∈ l) ∧
    a ≤ l.foldl max a ∧ ∀ z ∈ l, z ≤ l.foldl max a := by
  induction l with
  | nil => intro a; simp
  | cons x xs ih =>
    intro a
    obtain ⟨hmem, hle, hall⟩ := ih (max a x)
    have hfold : (x :: xs).foldl max a = xs.foldl max (max a x) := by
      simp [List.foldl_cons]
    refine ⟨?_, ?_, ?_⟩
    · rw [hfold]
      rcases hmem with h | h
      · rcases max_choice a x with hm | hm
        · exact Or.inl (by rw [h, hm])
        · exact Or.inr (by rw [h, hm]; exact List.mem_cons_self x xs)
      · exact Or.inr (List.mem_cons_of_mem x h)
    · rw [hfold]; exact le_trans (Nat.le_max_left a x) hle
    · intro z hz
      rw [hfold]
      rcases List.mem_cons.mp hz with h | h
      · rw [h]; exact le_trans (Nat.le_max_right a x) hle
      · exact hall z h

/-- C5, counterexample: for `report_2019_2021.pdf` neither the leading-year
nor the year-range pattern applies and the 4-digit year tokens are 2019 and
2021, so the claimed rule demands the maximum, 2021; the week-3
`infer_year_from_filename` returns 2019 (the FIRST token found). -/
theorem C5_counterexample :
    reMatch W3.leadYearRE (W3.basename "report_2019_2021.pdf".toList) =
      none ∧
    reSearch W3.yearRangeRE (W3.basename "report_2019_2021.pdf".toList) =
      none ∧
    (reFindall W3.yearTokenRE
      (W3.basename "report_2019_2021.pdf".toList)).map pyInt =
      [2019, 2021] ∧
    W3.infer_year_from_filename "report_2019_2021.pdf" = some 2019 ∧
    (2019 : Nat) ≠ 2021 := by
  refine ⟨?_, ?_, ?_, ?_, by decide⟩ <;> with_unfolding_all rfl

/-- A successful `seq` step exposes positive fuel and the two sub-matches in
continuation-passing order. -/
theorem mrun_seq_inv {a b : RE} {fuel : Nat} {st : MSt}
    {k : MSt → Option MSt} {r : MSt}
    (h : mrun fuel (.seq a b) st k = some r) :
    ∃ m, fuel = m + 1 ∧
      mrun m a st (fun st1 => mrun m b st1 k) = some r := by
  cases fuel with
  | zero => simp [mrun] at h
  | succ m => exact ⟨m, rfl, h⟩

/-- A successful character-class step consumed exactly one matching
character. -/
theorem mrun_cls_inv {p : Char → Bool} {fuel : Nat} {pv : Option Char}
    {rest : List Char} {caps : List (Nat × List Char)}
    {k : MSt → Option MSt} {r : MSt}
    (h : mrun fuel (.cls p) ⟨pv, rest, caps⟩ k = some r) :
    ∃ c cs, rest = c :: cs ∧ p c = true ∧ k ⟨some c, cs, caps⟩ = some r := by
  cases fuel with
  | zero => simp [mrun] at h
  | succ m =>
    cases rest with
    | nil => simp [mrun] at h
    | cons c cs =>
      simp only [mrun] at h
      by_cases hp : p c = true
      · rw [if_pos hp] at h
        exact ⟨c, cs, rfl, hp, h⟩
      · rw [if_neg hp] at h
        exact absurd h (by simp)

/-- A successful greedy `star` over a character class consumed a (possibly
empty) block of class characters and left the capture list untouched. -/
theorem mrun_star_cls_inv {p : Char → Bool} :
    ∀ (fuel : Nat) (pv : Option Char) (rest : List Char)
      (caps : List (Nat × List Char)) (k : MSt → Option MSt) (r : MSt),
    mrun fuel (.rep false 0 none (.cls p)) ⟨pv, rest, caps⟩ k = some r →
    ∃ sp pv2 rest2, rest = sp ++ rest2 ∧ sp.all p = true ∧
      k ⟨pv2, rest2, caps⟩ = some r := by
  intro fuel
  induction fuel with
  | zero => intro pv rest caps k r h; simp [mrun] at h
  | succ m ih =>
    intro pv rest caps k r h
    rw [show mrun (m + 1) (.rep false 0 none (.cls p)) ⟨pv, rest, caps⟩ k =
        (match mrun m (.cls p) ⟨pv, rest, caps⟩
            (fun st1 => mrun m (.rep false 0 none (.cls p)) st1 k) with
         | some r2 => some r2
         | none => k ⟨pv, rest, caps⟩) from rfl] at h
    cases hm : mrun m (.cls p) ⟨pv, rest, caps⟩
        (fun st1 => mrun m (.rep false 0 none (.cls p)) st1 k) with
    | none =>
      simp only [hm] at h
      exact ⟨[], pv, rest, rfl, rfl, h⟩
    | some r2 =>
      simp only [hm] at h
      obtain ⟨c, cs, hrest, hp, hk⟩ := mrun_cls_inv hm
      obtain ⟨sp, pv2, rest2, hsplit, hall, hk2⟩ :=
        ih (some c) cs caps k r2 hk
      exact ⟨c :: sp, pv2, rest2, by simp [hrest, hsplit],
        by simp [hp, hall], by rw [hk2, Option.some.inj h]⟩

/-- A successful match of the `20` + two-digits core consumed exactly the
four characters of a four-digit year starting with `20`. -/
theorem mrun_year4_inv {fuel : Nat} {pv : Option Char} {rest : List Char}
    {caps : List (Nat × List Char)} {k : MSt → Option MSt} {r : MSt}
    (h : mrun fuel (cat [lit "20", digitC, digitC]) ⟨pv, rest, caps⟩ k =
      some r) :
    ∃ d1 d2 rest2, rest = '2' :: '0' :: d1 :: d2 :: rest2 ∧
      isPyDigit d1 = true ∧ isPyDigit d2 = true ∧
      k ⟨some d2, rest2, caps⟩ = some r := by
  have hpat : cat [lit "20", digitC, digitC] =
      .seq (.seq (chr '2') (chr '0')) (.seq digitC digitC) := rfl
  rw [hpat] at h
  obtain ⟨m1, hf1, h1⟩ := mrun_seq_inv h
  obtain ⟨m2, hf2, h2⟩ := mrun_seq_inv h1
  obtain ⟨c2, cs2, hr2, hc2, h3⟩ := mrun_cls_inv h2
  have hc2e : c2 = '2' := by simpa using hc2
  subst hc2e
  obtain ⟨c0, cs0, hr0, hc0, h4⟩ := mrun_cls_inv h3
  have hc0e : c0 = '0' := by simpa using hc0
  subst hc0e
  obtain ⟨m3, hf3, h5⟩ := mrun_seq_inv h4
  obtain ⟨d1, cs1, hrd1, hd1, h6⟩ := mrun_cls_inv h5
  obtain ⟨d2, cs3, hrd2, hd2, h7⟩ := mrun_cls_inv h6
  exact ⟨d1, d2, cs3, by rw [hr2, hr0, hrd1, hrd2], hd1, hd2, h7⟩

/-- A successful capture group around the four-digit-year core records that
year as the group text. -/
theorem mrun_grpYear_inv {fuel i : Nat} {pv : Option Char} {rest : List Char}
    {caps : List (Nat × List Char)} {k : MSt → Option MSt} {r : MSt}
    (h : mrun fuel (.grp i (cat [lit "20", digitC, digitC]))
      ⟨pv, rest, caps⟩ k = some r) :
    ∃ d1 d2 rest2, rest = '2' :: '0' :: d1 :: d2 :: rest2 ∧
      isPyDigit d1 = true ∧ isPyDigit d2 = true ∧
      k ⟨some d2, rest2, (i, ['2', '0', d1, d2]) :: caps⟩ = some r := by
  cases fuel with
  | zero => simp [mrun] at h
  | succ m =>
    have h2 : mrun m (cat [lit "20", digitC, digitC]) ⟨pv, rest, caps⟩
        (fun st1 => k ⟨st1.prev, st1.rest,
          (i, rest.take (rest.length - st1.rest.length)) :: st1.caps⟩) =
        some r := h
    obtain ⟨d1, d2, rest2, hsplit, hd1, hd2, hk⟩ := mrun_year4_inv h2
    refine ⟨d1, d2, rest2, hsplit, hd1, hd2, ?_⟩
    have htake : rest.take (rest.length - rest2.length) =
        ['2', '0', d1, d2] := by
      rw [hsplit]
      rw [show ('2' :: '0' :: d1 :: d2 :: rest2).length - rest2.length = 4
        from by simp only [List.length_cons]; omega]
      rfl
    simpa only [htake] using hk

/-- Inversion for the year-range pattern: any successful anchored match
splits the input as a first year `20..`, optional spaces, a dash, optional
spaces and a second year `20..`, and records group 1 = the first year and
group 2 = the second (later) year. -/
theorem matchHere_yearRange_inv {pv : Option Char} {s : List Char} {st : MSt}
    (h : matchHere W3.yearRangeRE pv s = some st) :
    ∃ d1 d2 sp1 dashc sp2 e1 e2 tail,
      s = ['2', '0', d1, d2] ++ sp1 ++ [dashc] ++ sp2 ++
          ['2', '0', e1, e2] ++ tail ∧
      isPyDigit d1 = true ∧ isPyDigit d2 = true ∧
      isPyDigit e1 = true ∧ isPyDigit e2 = true ∧
      sp1.all isPySpace = true ∧ sp2.all isPySpace = true ∧
      (dashc = '-' ∨ dashc = '–') ∧
      capGet st 1 = some ['2', '0', d1, d2] ∧
      capGet st 2 = some ['2', '0', e1, e2] := by
  have hpat : W3.yearRangeRE =
      .seq (.grp 1 (cat [lit "20", digitC, digitC]))
        (.seq (.rep false 0 none (.cls isPySpace))
          (.seq (.cls (fun c => c = '-' || c = '–'))
            (.seq (.rep false 0 none (.cls isPySpace))
              (.grp 2 (cat [lit "20", digitC, digitC]))))) := rfl
  unfold matchHere at h
  rw [hpat] at h
  obtain ⟨m1, hf1, h1⟩ := mrun_seq_inv h
  obtain ⟨d1, d2, r1, hs1, hd1, hd2, h2⟩ := mrun_grpYear_inv h1
  obtain ⟨m2, hf2, h3⟩ := mrun_seq_inv h2
  obtain ⟨sp1, pv2, r2, hs2, hsp1, h4⟩ :=
    mrun_star_cls_inv _ _ _ _ _ _ h3
  obtain ⟨m3, hf3, h5⟩ := mrun_seq_inv h4
  obtain ⟨dashc, r3, hs3, hdash, h6⟩ := mrun_cls_inv h5
  obtain ⟨m4, hf4, h7⟩ := mrun_seq_inv h6
  obtain ⟨sp2, pv3, r4, hs4, hsp2, h8⟩ :=
    mrun_star_cls_inv _ _ _ _ _ _ h7
  obtain ⟨e1, e2, tail, hs5, he1, he2, h9⟩ := mrun_grpYear_inv h8
  have hst : st = ⟨some e2, tail,
      [(2, ['2', '0', e1, e2]), (1, ['2', '0', d1, d2])]⟩ :=
    (Option.some.inj h9).symm
  refine ⟨d1, d2, sp1, dashc, sp2, e1, e2, tail, ?_, hd1, hd2, he1, he2,
    hsp1, hsp2, ?_, ?_, ?_⟩
  · rw [hs1, hs2, hs3, hs4, hs5]; simp
  · simpa using hdash
  · rw [hst]; rfl
  · rw [hst]; rfl

/-- A `searchIn` success is an anchored match at some split of the input. -/
theorem searchIn_inv {r : RE} :
    ∀ (pv : Option Char) (s suf : List Char) (st : MSt),
    searchIn r pv s = some (suf, st) →
    ∃ pre pv2, s = pre ++ suf ∧ matchHere r pv2 suf = some st := by
  intro pv s
  induction s generalizing pv with
  | nil =>
    intro suf st h
    rw [searchIn] at h
    cases hm : matchHere r pv [] with
    | none => simp [hm] at h
    | some st1 =>
      simp only [hm, Option.some.injEq, Prod.mk.injEq] at h
      exact ⟨[], pv, by simp [← h.1], by rw [← h.1, ← h.2]; exact hm⟩
  | cons c cs ih =>
    intro suf st h
    rw [searchIn] at h
    cases hm : matchHere r pv (c :: cs) with
    | some st1 =>
      simp only [hm, Option.some.injEq, Prod.mk.injEq] at h
      exact ⟨[], pv, by simp [← h.1], by rw [← h.1, ← h.2]; exact hm⟩
    | none =>
      simp only [hm] at h
      obtain ⟨pre, pv2, hsplit, hmh⟩ := ih (some c) suf st h
      exact ⟨c :: pre, pv2, by simp [hsplit], hmh⟩

/-- A `re.search` success is an anchored match at some split of the input. -/
theorem reSearch_inv {r : RE} {s : List Char} {st : MSt}
    (h : reSearch r s = some st) :
    ∃ pre pv suf, s = pre ++ suf ∧ matchHere r pv suf = some st := by
  unfold reSearch at h
  cases hs : searchIn r none s with
  | none => rw [hs] at h; simp at h
  | some pr =>
    rw [hs] at h
    simp only [Option.map_some'] at h
    obtain ⟨pre, pv2, hsplit, hmh⟩ :=
      searchIn_inv none s pr.1 pr.2 (by rw [hs])
    exact ⟨pre, pv2, pr.1, hsplit, by rw [hmh, h]⟩

/-- Forward evaluation: the four-digit-year core consumes `20dd` from the
front of the input whenever the two digit characters are digits. -/
theorem mrun_year4_run (fuel : Nat) (h8 : 8 ≤ fuel) (pv : Option Char)
    (d1 d2 : Char) (rest : List Char) (caps : List (Nat × List Char))
    (k : MSt → Option MSt)
    (h1 : isPyDigit d1 = true) (h2 : isPyDigit d2 = true) :
    mrun fuel (cat [lit "20", digitC, digitC])
      ⟨pv, '2' :: '0' :: d1 :: d2 :: rest, caps⟩ k =
      k ⟨some d2, rest, caps⟩ := by
  obtain ⟨m, rfl⟩ : ∃ m, fuel = m + 8 := ⟨fuel - 8, by omega⟩
  have hpat : cat [lit "20", digitC, digitC] =
      .seq (.seq (chr '2') (chr '0')) (.seq digitC digitC) := rfl
  rw [hpat]
  simp [mrun, chr, digitC, h1, h2]

/-- Forward evaluation of the anchored leading-year pattern: a name starting
with `20` plus two digits matches, capturing those four characters as
group 1. -/
theorem reMatch_leadYear (d1 d2 : Char) (rest : List Char)
    (h1 : isPyDigit d1 = true) (h2 : isPyDigit d2 = true) :
    reMatch W3.leadYearRE ('2' :: '0' :: d1 :: d2 :: rest) =
      some ⟨some d2, rest, [(1, ['2', '0', d1, d2])]⟩ := by
  unfold reMatch matchHere W3.leadYearRE
  obtain ⟨m, hm⟩ : ∃ m, reFuel ('2' :: '0' :: d1 :: d2 :: rest) = m + 1 :=
    ⟨reFuel ('2' :: '0' :: d1 :: d2 :: rest) - 1, by unfold reFuel; omega⟩
  rw [hm]
  rw [show mrun (m + 1) (.grp 1 (cat [lit "20", digitC, digitC]))
      ⟨none, '2' :: '0' :: d1 :: d2 :: rest, []⟩ some =
    mrun m (cat [lit "20", digitC, digitC])
      ⟨none, '2' :: '0' :: d1 :: d2 :: rest, []⟩
      (fun st1 => some ⟨st1.prev, st1.rest,
        (1, ('2' :: '0' :: d1 :: d2 :: rest).take
          (('2' :: '0' :: d1 :: d2 :: rest).length - st1.rest.length)) ::
          st1.caps⟩) from rfl]
  have h8 : 8 ≤ m := by
    unfold reFuel at hm
    simp only [List.length_cons] at hm
    omega
  rw [mrun_year4_run m h8 none d1 d2 rest [] _ h1 h2]
  have htake : List.take (rest.length + 1 + 1 + 1 + 1 - rest.length)
      ('2' :: '0' :: d1 :: d2 :: rest) = ['2', '0', d1, d2] := by
    rw [show rest.length + 1 + 1 + 1 + 1 - rest.length = 4 from by omega]
    rfl
  simp [htake]

/-- C5 (amended): the year-derivation cascade.  A name starting with a
four-digit `20..` year yields that year in both scripts; otherwise a
year-range occurrence yields the range's second (later) year in both
scripts; otherwise the week-3 script takes the FIRST four-digit year token
while the week-2 script takes the MAXIMUM token; with no token the week-2
script yields no year (the week-3 head-of-tokens clause likewise yields
none on the empty token list). -/
theorem C5_year_fallbacks :
    (∀ (f : String) (d1 d2 : Char) (rest : List Char),
      W3.basename f.toList = '2' :: '0' :: d1 :: d2 :: rest →
      isPyDigit d1 = true → isPyDigit d2 = true →
      W3.infer_year_from_filename f = some (pyInt ['2', '0', d1, d2]))
    ∧
    (∀ (f : String) (d1 d2 : Char) (rest : List Char),
      f.toList = '2' :: '0' :: d1 :: d2 :: rest →
      isPyDigit d1 = true → isPyDigit d2 = true →
      W2.infer_year_from_filename f = some (pyInt ['2', '0', d1, d2]))
    ∧
    (∀ (f : String) (st : MSt),
      reMatch W3.leadYearRE (W3.basename f.toList) = none →
      reSearch W3.yearRangeRE (W3.basename f.toList) = some st →
      ∃ pre d1 d2 sp1 dashc sp2 e1 e2 tail,
        W3.basename f.toList = pre ++ ['2', '0', d1, d2] ++ sp1 ++
          [dashc] ++ sp2 ++ ['2', '0', e1, e2] ++ tail ∧
        isPyDigit d1 = true ∧ isPyDigit d2 = true ∧
        isPyDigit e1 = true ∧ isPyDigit e2 = true ∧
        sp1.all isPySpace = true ∧ sp2.all isPySpace = true ∧
        (dashc = '-' ∨ dashc = '–') ∧
        W3.infer_year_from_filename f = some (pyInt ['2', '0', e1, e2]))
    ∧
    (∀ (f : String) (st : MSt),
      reMatch W3.leadYearRE f.toList = none →
      reSearch W3.yearRangeRE f.toList = some st →
      ∃ pre d1 d2 sp1 dashc sp2 e1 e2 tail,
        f.toList = pre ++ ['2', '0', d1, d2] ++ sp1 ++
          [dashc] ++ sp2 ++ ['2', '0', e1, e2] ++ tail ∧
        isPyDigit d1 = true ∧ isPyDigit d2 = true ∧
        isPyDigit e1 = true ∧ isPyDigit e2 = true ∧
        sp1.all isPySpace = true ∧ sp2.all isPySpace = true ∧
        (dashc = '-' ∨ dashc = '–') ∧
        W2.infer_year_from_filename f = some (pyInt ['2', '0', e1, e2]))
    ∧
    (∀ f : String,
      reMatch W3.leadYearRE (W3.basename f.toList) = none →
      reSearch W3.yearRangeRE (W3.basename f.toList) = none →
      W3.infer_year_from_filename f =
        ((reFindall W3.yearTokenRE (W3.basename f.toList)).map pyInt).head?)
    ∧
    (∀ (f : String) (t : List Char) (ts : List (List Char)),
      reMatch W3.leadYearRE f.toList = none →
      reSearch W3.yearRangeRE f.toList = none →
      reFindall W3.yearTokenRE f.toList = t :: ts →
      ∃ y, W2.infer_year_from_filename f = some y ∧
        y ∈ (t :: ts).map pyInt ∧ ∀ z ∈ (t :: ts).map pyInt, z ≤ y)
    ∧
    (∀ f : String,
      reMatch W3.leadYearRE f.toList = none →
      reSearch W3.yearRangeRE f.toList = none →
      reFindall W3.yearTokenRE f.toList = [] →
      W2.infer_year_from_filename f = none) := by
  refine ⟨?_, ?_, ?_, ?_, ?_, ?_, ?_⟩
  · intro f d1 d2 rest hb h1 h2
    unfold W3.infer_year_from_filename
    simp only [hb]
    rw [reMatch_leadYear d1 d2 rest h1 h2]
    rfl
  · intro f d1 d2 rest hb h1 h2
    unfold W2.infer_year_from_filename
    simp only [hb]
    rw [reMatch_leadYear d1 d2 rest h1 h2]
    rfl
  · intro f st hlead hsearch
    obtain ⟨pre, pv, suf, hsplit, hmh⟩ := reSearch_inv hsearch
    obtain ⟨d1, d2, sp1, dashc, sp2, e1, e2, tail, hsuf, hd1, hd2, he1,
      he2, hsp1, hsp2, hdash, hcap1, hcap2⟩ := matchHere_yearRange_inv hmh
    refine ⟨pre, d1, d2, sp1, dashc, sp2, e1, e2, tail, ?_, hd1, hd2,
      he1, he2, hsp1, hsp2, hdash, ?_⟩
    · rw [hsplit, hsuf]; simp
    · unfold W3.infer_year_from_filename
      simp only [hlead, hsearch]
      rw [hcap2]
      rfl
  · intro f st hlead hsearch
    obtain ⟨pre, pv, suf, hsplit, hmh⟩ := reSearch_inv hsearch
    obtain ⟨d1, d2, sp1, dashc, sp2, e1, e2, tail, hsuf, hd1, hd2, he1,
      he2, hsp1, hsp2, hdash, hcap1, hcap2⟩ := matchHere_yearRange_inv hmh
    refine ⟨pre, d1, d2, sp1, dashc, sp2, e1, e2, tail, ?_, hd1, hd2,
      he1, he2, hsp1, hsp2, hdash, ?_⟩
    · rw [hsplit, hsuf]; simp
    · unfold W2.infer_year_from_filename
      simp only [hlead, hsearch]
      rw [hcap2]
      rfl
  · intro f h1 h2
    unfold W3.infer_year_from_filename
    simp only [h1, h2]
    cases h : reFindall W3.yearTokenRE (W3.basename f.toList) <;> simp [h]
  · intro f t ts h1 h2 h3
    unfold W2.infer_year_from_filename
    simp only [h1, h2, h3, List.map_cons]
    refine ⟨(List.map pyInt ts).foldl max (pyInt t), by simp, ?_, ?_⟩
    · obtain ⟨hmem, -, -⟩ := foldl_max_spec (ts.map pyInt) (pyInt t)
      rcases hmem with h | h
      · simp [h]
      · simp [List.mem_cons, h]
    · intro z hz
      obtain ⟨-, hle, hall⟩ := foldl_max_spec (ts.map pyInt) (pyInt t)
      rcases List.mem_cons.mp hz with h | h
      · simpa [h] using hle
      · exact hall z h
  · intro f h1 h2 h3
    unfold W2.infer_year_from_filename
    simp only [h1, h2, h3, List.map_nil]

/-- C5 witness: the cascade applied to `2019GradReport.pdf` (leading-year
arm, both scripts), `Report 2018-2019.pdf` (year-range arm, both scripts,
later year 2019), `report_2019_2021.pdf` (token-fallback arm: week 3 takes
the first token, week 2 the maximum) and `report.pdf` (no token: week 2
yields no year). -/
theorem C5_year_fallbacks_witness :
    W3.infer_year_from_filename "2019GradReport.pdf" =
      some (pyInt ['2', '0', '1', '9']) ∧
    W2.infer_year_from_filename "2019GradReport.pdf" =
      some (pyInt ['2', '0', '1', '9']) ∧
    (∃ pre d1 d2 sp1 dashc sp2 e1 e2 tail,
      W3.basename "Report 2018-2019.pdf".toList = pre ++
        ['2', '0', d1, d2] ++ sp1 ++ [dashc] ++ sp2 ++
        ['2', '0', e1, e2] ++ tail ∧
      isPyDigit d1 = true ∧ isPyDigit d2 = true ∧
      isPyDigit e1 = true ∧ isPyDigit e2 = true ∧
      sp1.all isPySpace = true ∧ sp2.all isPySpace = true ∧
      (dashc = '-' ∨ dashc = '–') ∧
      W3.infer_year_from_filename "Report 2018-2019.pdf" =
        some (pyInt ['2', '0', e1, e2])) ∧
    (∃ pre d1 d2 sp1 dashc sp2 e1 e2 tail,
      "Report 2018-2019.pdf".toList = pre ++
        ['2', '0', d1, d2] ++ sp1 ++ [dashc] ++ sp2 ++
        ['2', '0', e1, e2] ++ tail ∧
      isPyDigit d1 = true ∧ isPyDigit d2 = true ∧
      isPyDigit e1 = true ∧ isPyDigit e2 = true ∧
      sp1.all isPySpace = true ∧ sp2.all isPySpace = true ∧
      (dashc = '-' ∨ dashc = '–') ∧
      W2.infer_year_from_filename "Report 2018-2019.pdf" =
        some (pyInt ['2', '0', e1, e2])) ∧
    W3.infer_year_from_filename "report_2019_2021.pdf" =
      ((reFindall W3.yearTokenRE
        (W3.basename "report_2019_2021.pdf".toList)).map pyInt).head? ∧
    (∃ y, W2.infer_year_from_filename "report_2019_2021.pdf" = some y ∧
      y ∈ (["2019".toList, "2021".toList].map pyInt) ∧
      ∀ z ∈ (["2019".toList, "2021".toList].map pyInt), z ≤ y) ∧
    W2.infer_year_from_filename "report.pdf" = none :=
  ⟨C5_year_fallbacks.1 "2019GradReport.pdf" '1' '9' "GradReport.pdf".toList
     (by with_unfolding_all rfl) (by with_unfolding_all rfl)
     (by with_unfolding_all rfl),
   C5_year_fallbacks.2.1 "2019GradReport.pdf" '1' '9'
     "GradReport.pdf".toList (by with_unfolding_all rfl)
     (by with_unfolding_all rfl) (by with_unfolding_all rfl),
   C5_year_fallbacks.2.2.1 "Report 2018-2019.pdf"
     ⟨some '9', ".pdf".toList, [(2, "2019".toList), (1, "2018".toList)]⟩
     (by with_unfolding_all rfl) (by with_unfolding_all rfl),
   C5_year_fallbacks.2.2.2.1 "Report 2018-2019.pdf"
     ⟨some '9', ".pdf".toList, [(2, "2019".toList), (1, "2018".toList)]⟩
     (by with_unfolding_all rfl) (by with_unfolding_all rfl),
   C5_year_fallbacks.2.2.2.2.1 "report_2019_2021.pdf"
     (by with_unfolding_all rfl) (by with_unfolding_all rfl),
   C5_year_fallbacks.2.2.2.2.2.1 "report_2019_2021.pdf" "2019".toList
     ["2021".toList] (by with_unfolding_all rfl)
     (by with_unfolding_all rfl) (by with_unfolding_all rfl),
   C5_year_fallbacks.2.2.2.2.2.2 "report.pdf" (by with_unfolding_all rfl)
     (by with_unfolding_all rfl) (by with_unfolding_all rfl)⟩

/-- Every value stored in the week-2 alias dictionary is canonical. -/
theorem w2_lookup_values :
    W2.unit_lookup.all (fun p => decide (p.2 ∈ unit_order)) = true := by
  with_unfolding_all rfl

/-- Every value stored in the week-1 alias dictionary is canonical. -/
theorem w1_lookup_values :
    W1.unit_lookup.all (fun p => decide (p.2 ∈ unit_order)) = true := by
  with_unfolding_all rfl

/-- A successful week-2 dictionary lookup yields a canonical unit. -/
theorem w2_dictGet_mem (k c : String)
    (h : dictGet W2.unit_lookup k = some c) : c ∈ unit_order := by
  unfold dictGet at h
  cases hf : W2.unit_lookup.find? (fun p => p.1 = k) with
  | none => simp [hf] at h
  | some p =>
    have hmem := List.mem_of_find?_eq_some hf
    have hval := List.all_eq_true.mp w2_lookup_values p hmem
    simp only [hf, Option.map_some] at h
    cases h
    exact of_decide_eq_true hval

/-- C7, counterexample: `canonicalize_unit` applied to the non-alias input
`"Foo  Bar"` returns the whitespace-normalized string `"Foo Bar"`, which is
neither a member of the canonical enumeration nor the input unchanged — a
third value, contrary to the claim. -/
theorem C7_counterexample :
    W2.canonicalize_unit "Foo  Bar" = "Foo Bar" ∧
    "Foo Bar" ∉ unit_order ∧
    ("Foo Bar" : String) ≠ "Foo  Bar" := by
  refine ⟨by with_unfolding_all rfl, by decide, by decide⟩

/-- C7 (amended): `canonicalize_unit` returns either a member of the fixed
canonical enumeration or the whitespace/dash-NORMALIZED input (not the
verbatim input) — never any third value — in both the week-2 and week-1
versions; and every alias-table variant canonicalizes to its enumerated
canonical unit. -/
theorem C7_canonicalize_total :
    (∀ u : String, W2.canonicalize_unit u ∈ unit_order ∨
      W2.canonicalize_unit u = W2.normalize_unit u) ∧
    (∀ u : String, W1.canonicalize_unit u ∈ unit_order ∨
      W1.canonicalize_unit u = W1.normalize_unit u) ∧
    unit_order.all (fun u => W2.canonicalize_unit u = u) = true ∧
    W2.canonicalize_unit "Phillip Merrill College of Journalism" =
      "Philip Merrill College of Journalism" ∧
    W2.canonicalize_unit "Robert H. Smith School of Business" =
      "The Robert H. Smith School of Business" ∧
    W2.canonicalize_unit "Robert H Smith School of Business" =
      "The Robert H. Smith School of Business" ∧
    W2.canonicalize_unit "Office of Undergraduate Studies" =
      "Undergraduate Studies" ∧
    W2.canonicalize_unit "Division of Undergraduate Studies" =
      "Undergraduate Studies" ∧
    W2.canonicalize_unit "College of Information Studies" =
      "College of Information" ∧
    W1.canonicalize_unit "Phillip Merrill College of Journalism" =
      "Philip Merrill College of Journalism" := by
  refine ⟨?_, ?_, ?_, ?_, ?_, ?_, ?_, ?_, ?_, ?_⟩
  · intro u
    unfold W2.canonicalize_unit
    cases h : dictGet W2.unit_lookup (unit_key (W2.normalize_unit u)) with
    | none => simp only [h]; exact Or.inr trivial
    | some c => simp only [h]; exact Or.inl (w2_dictGet_mem _ _ h)
  · intro u
    unfold W1.canonicalize_unit
    cases h : dictGet W1.unit_lookup (unit_key (W1.normalize_unit u)) with
    | none =>
      cases hf : W1.unit_lookup_items.find? (fun p =>
          containsSub (unit_key (W1.normalize_unit u)).toList p.1.toList)
        with
      | none => simp only [h, hf]; exact Or.inr trivial
      | some p =>
        simp only [h, hf]
        refine Or.inl ?_
        have hmem := List.mem_of_find?_eq_some hf
        have hmem2 : p ∈ W1.unit_lookup :=
          List.mem_mergeSort.mp hmem
        exact of_decide_eq_true (List.all_eq_true.mp w1_lookup_values p hmem2)
    | some c =>
      simp only [h]
      refine Or.inl ?_
      unfold dictGet at h
      cases hf : W1.unit_lookup.find? (fun p => p.1 =
          unit_key (W1.normalize_unit u)) with
      | none => simp [hf] at h
      | some p =>
        have hmem := List.mem_of_find?_eq_some hf
        have hval := List.all_eq_true.mp w1_lookup_values p hmem
        simp only [hf, Option.map_some] at h
        cases h
        exact of_decide_eq_true hval
  · with_unfolding_all rfl
  · with_unfolding_all rfl
  · with_unfolding_all rfl
  · with_unfolding_all rfl
  · with_unfolding_all rfl
  · with_unfolding_all rfl
  · with_unfolding_all rfl
  · with_unfolding_all rfl

/-- `dropWhile` keeps a final element the predicate rejects. -/
theorem dropWhile_append_last (p : Char → Bool) (c : Char)
    (hc : p c = false) (l : List Char) :
    ∃ l', (l ++ [c]).dropWhile p = l' ++ [c] := by
  induction l with
  | nil => exact ⟨[], by simp [List.dropWhile_cons, hc]⟩
  | cons x xs ih =>
    by_cases hx : p x = true
    · obtain ⟨l', hl'⟩ := ih
      exact ⟨l', by simp [List.dropWhile_cons, hx, hl']⟩
    · exact ⟨x :: xs, by simp [List.dropWhile_cons, hx]⟩

/-- Stripping whitespace preserves a leading `<`. -/
theorem pyStrip_cons_lt (t : List Char) :
    ∃ t', pyStrip ('<' :: t) = '<' :: t' := by
  unfold pyStrip dropLeadingSpace
  obtain ⟨l', hl'⟩ := dropWhile_append_last isPySpace '<' (by decide)
    t.reverse
  rw [show ('<' :: t).reverse = t.reverse ++ ['<'] by simp, hl',
    show (l' ++ ['<']).reverse = '<' :: l'.reverse by simp]
  exact ⟨l'.reverse, by simp [List.dropWhile_cons, isPySpace]⟩

/-- Python `float` fails on any string beginning with `<`. -/
theorem pyFloat_cons_lt (t : List Char) : pyFloat ('<' :: t) = none := by
  obtain ⟨t', ht⟩ := pyStrip_cons_lt t
  unfold pyFloat
  simp [ht, List.takeWhile_cons, List.dropWhile_cons,
    show isPyDigit '<' = false from rfl]

/-- Removing trailing `%` preserves a leading `<`. -/
theorem pyRstrip_cons_lt (t : List Char) :
    ∃ t', pyRstripChar '%' ('<' :: t) = '<' :: t' := by
  unfold pyRstripChar
  obtain ⟨l', hl'⟩ := dropWhile_append_last (· = '%') '<' (by decide)
    t.reverse
  rw [show ('<' :: t).reverse = t.reverse ++ ['<'] by simp, hl',
    show (l' ++ ['<']).reverse = '<' :: l'.reverse by simp]
  exact ⟨l'.reverse, rfl⟩

/-- C8, counterexample: the `"<1%"` constant is 0.5, but the parseable
explicit percentage `"0.4%"` converts to 0.4 < 0.5, so the constant is NOT
strictly below every parseable explicit percentage. -/
theorem C8_counterexample :
    W2.pct_to_num "0.4%" = 2/5 ∧ W2.pct_to_num "<1%" = 1/2 ∧
    ¬(W2.pct_to_num "<1%" < W2.pct_to_num "0.4%") := by
  have h1 : W2.pct_to_num "0.4%" = 2/5 := by with_unfolding_all rfl
  have h2 : W2.pct_to_num "<1%" = 1/2 := by with_unfolding_all rfl
  refine ⟨h1, h2, ?_⟩
  rw [h1, h2]
  norm_num

/-- C8 (amended): `pct_to_num` maps `""` to −1.0, strictly below the
`"<1%"` constant 0.5; and 0.5 is strictly below every parseable explicit
percentage whose numeric value is at least 1 (not below sub-1 percentages
such as `"0.4%"`), the conversion returning exactly the parsed value for
such strings.  (The week-1 variant `pct_to_float` maps `"<1%"` to 1.0 and
`""` to NaN, modelled as `none`.) -/
theorem C8_pct_constants :
    W2.pct_to_num "" < W2.pct_to_num "<1%" ∧
    (∀ (s : String) (v : ℚ),
      pyFloat (pyRstripChar '%' (pyStrip s.toList)) = some v → 1 ≤ v →
      W2.pct_to_num s = v ∧ W2.pct_to_num "<1%" < W2.pct_to_num s) ∧
    W1.pct_to_float "<1%" = some 1 ∧ W1.pct_to_float "" = none := by
  refine ⟨?_, ?_, by with_unfolding_all rfl, by with_unfolding_all rfl⟩
  · have h1 : W2.pct_to_num "" = -1 := by with_unfolding_all rfl
    have h2 : W2.pct_to_num "<1%" = 1/2 := by with_unfolding_all rfl
    rw [h1, h2]; norm_num
  · intro s v hv hge
    have h2 : W2.pct_to_num "<1%" = 1/2 := by with_unfolding_all rfl
    have hs : W2.pct_to_num s = v := by
      have hne : (pyStrip s.toList).isEmpty = false := by
        cases hq : pyStrip s.toList with
        | nil =>
          exfalso
          rw [hq] at hv
          have hz : pyFloat (pyRstripChar '%' ([] : List Char)) = none := by
            with_unfolding_all rfl
          rw [hz] at hv; exact Option.noConfusion hv
        | cons c cs => rfl
      have hcond : (startsWith (pyStrip s.toList) "<".toList &&
          endsWith (pyStrip s.toList) "%".toList) = false := by
        cases hq : pyStrip s.toList with
        | nil => rfl
        | cons c cs =>
          by_cases hc : c = '<'
          · subst hc
            exfalso
            obtain ⟨t', ht'⟩ := pyRstrip_cons_lt cs
            rw [hq, ht', pyFloat_cons_lt] at hv
            exact Option.noConfusion hv
          · have hsw : startsWith (c :: cs) "<".toList = false := by
              simp [startsWith, hc]
            rw [hsw, Bool.false_and]
      unfold W2.pct_to_num
      simp only [hne, hcond, Bool.false_eq_true, if_false, hv]
    refine ⟨hs, ?_⟩
    rw [hs, h2]
    linarith

/-- C8 witness: the conversion and bound applied to the concrete
percentage `"45%"`. -/
theorem C8_pct_constants_witness :
    W2.pct_to_num "45%" = 45 ∧ W2.pct_to_num "<1%" < W2.pct_to_num "45%" :=
  C8_pct_constants.2.1 "45%" 45 (by with_unfolding_all rfl) (by norm_num)

/-- C6, counterexample: in the outcome-extraction pipeline, for a two-page
document whose first page is titled "College of Education" (and has no
tables) and whose second page declares no unit but contains a qualifying
outcomes table, the records parsed from page 2 are NOT attributed to
"College of Education": the week-1 loop carries no unit state across
pages, so they are attributed to page 2's own (empty) extracted title. -/
theorem C6_counterexample :
    W1.get_page_title "College of Education\nReported Outcomes of 2019 Graduates" = "College of Education" ∧
    (W1.is_outcomes_table
      [[some "Employed FT", some "1,200", some "65%"],
       [some "Employed PT", some "100", some "5%"],
       [some "Unplaced", some "300", some "16%"]]).1 = true ∧
    W1.processDoc "2019GraduationSurveyReport.pdf"
      [{ text := "College of Education\nReported Outcomes of 2019 Graduates",
         tables := [] },
       { text := "Employed FT 1200 65%\nEmployed PT 100 5%\nUnplaced 300 16%",
         tables := [[[some "Employed FT", some "1,200", some "65%"],
                     [some "Employed PT", some "100", some "5%"],
                     [some "Unplaced", some "300", some "16%"]]] }] =
      [⟨"2019GraduationSurveyReport.pdf", "", "Employed FT", "1,200", "65%"⟩,
       ⟨"2019GraduationSurveyReport.pdf", "", "Employed PT", "100", "5%"⟩,
       ⟨"2019GraduationSurveyReport.pdf", "", "Unplaced", "300", "16%"⟩] ∧
    ("" : String) ≠ "College of Education" := by
  refine ⟨?_, ?_, ?_, by decide⟩ <;> with_unfolding_all rfl

/-- C6 (amended): the week-1 outcome pipeline resolves a unit per page
with no carry-over: every record produced from a page is attributed to
THAT page's extracted title, so in the two-page scenario page 2's records
carry page 2's own title (here the empty string, page 2 having no
title-like line), not "College of Education" from page 1. -/
theorem C6_title_per_page :
    (∀ (file : String) (pg : W1.Page) (r : W1.W1Row),
      r ∈ W1.processPage file pg → r.title = W1.get_page_title pg.text) ∧
    (W1.processDoc "2019GraduationSurveyReport.pdf"
      [{ text := "College of Education\nReported Outcomes of 2019 Graduates",
         tables := [] },
       { text := "Employed FT 1200 65%\nEmployed PT 100 5%\nUnplaced 300 16%",
         tables := [[[some "Employed FT", some "1,200", some "65%"],
                     [some "Employed PT", some "100", some "5%"],
                     [some "Unplaced", some "300", some "16%"]]] }]).map
      (fun r => r.title) = ["", "", ""] := by
  constructor
  · intro file pg r hr
    unfold W1.processPage at hr
    by_cases hne : pg.tables.isEmpty
    · rw [hne] at hr; simp at hr
    · rw [Bool.not_eq_true] at hne
      rw [hne] at hr
      simp only [Bool.false_eq_true, if_false] at hr
      split at hr
      · simp at hr
      · rw [List.mem_map] at hr
        obtain ⟨it, -, hit⟩ := hr
        rw [← hit]
  · with_unfolding_all rfl

/-- C6 witness: the per-page attribution fact applied to the concrete
second page of the counterexample document. -/
theorem C6_title_per_page_witness :
    (⟨"2019GraduationSurveyReport.pdf", "", "Employed FT", "1,200",
        "65%"⟩ : W1.W1Row).title =
      W1.get_page_title
        "Employed FT 1200 65%\nEmployed PT 100 5%\nUnplaced 300 16%" :=
  C6_title_per_page.1 "2019GraduationSurveyReport.pdf"
    { text := "Employed FT 1200 65%\nEmployed PT 100 5%\nUnplaced 300 16%",
      tables := [[[some "Employed FT", some "1,200", some "65%"],
                  [some "Employed PT", some "100", some "5%"],
                  [some "Unplaced", some "300", some "16%"]]] }
    ⟨"2019GraduationSurveyReport.pdf", "", "Employed FT", "1,200", "65%"⟩
    (by with_unfolding_all decide)

/-- Stable two-element sort (the `sort_values` of the deduplication step
on a two-row frame). -/
theorem mergeSort_pair {α : Type _} (le : α → α → Bool) (a b : α) :
    [a, b].mergeSort le = if le a b then [a, b] else [b, a] := by
  by_cases h : le a b = true <;> simp [List.mergeSort, List.merge, h]

/-- C4: deduplication tie-breaks.  (a) In the week-2 `best_for_method`
accumulation, of two raw fields mapping to the same method category the
one with the strictly greater converted value is kept (the earlier one on
ties or lower values).  (b) In the week-3 per-(Year, Unit) deduplication,
of two rows with the same key the one with the higher priority tag is kept
regardless of value order, and on equal priorities the one with the
earlier page number. -/
theorem C4_dedup_tiebreaks :
    (∀ (l1 l2 v1 v2 mk : String),
      W2.method_key l1 = some mk → W2.method_key l2 = some mk →
      (W2.pct_to_num v2 > W2.pct_to_num v1 →
        W2.best_for_method [(l1, v1), (l2, v2)] = [(mk, (l2, v2))]) ∧
      (¬(W2.pct_to_num v2 > W2.pct_to_num v1) →
        W2.best_for_method [(l1, v1), (l2, v2)] = [(mk, (l1, v1))])) ∧
    (∀ r1 r2 : W3.Row, r1.year = r2.year → r1.unit = r2.unit →
      (r2.priority < r1.priority →
        W3.dedupRows [r1, r2] = [r1] ∧ W3.dedupRows [r2, r1] = [r1]) ∧
      (r1.priority = r2.priority → r1.page < r2.page →
        W3.dedupRows [r1, r2] = [r1] ∧ W3.dedupRows [r2, r1] = [r1])) := by
  constructor
  · intro l1 l2 v1 v2 mk h1 h2
    constructor <;> intro hcmp <;>
      simp [W2.best_for_method, h1, h2, List.find?, hcmp]
  · intro r1 r2 hy hu
    constructor
    · intro hp
      have hle12 : W3.rowSortLE r1 r2 = true := by
        simp [W3.rowSortLE, hy, hu, Nat.ne_of_gt hp, hp]
      have hle21 : W3.rowSortLE r2 r1 = false := by
        simp [W3.rowSortLE, hy, hu, (Nat.ne_of_gt hp).symm,
          Nat.not_lt.mpr (Nat.le_of_lt hp)]
      constructor
      · unfold W3.dedupRows
        rw [mergeSort_pair, hle12]
        simp [W3.dropDupFirst, hy, hu]
      · unfold W3.dedupRows
        rw [mergeSort_pair, hle21]
        simp [W3.dropDupFirst, hy, hu]
    · intro hp hpg
      have hle12 : W3.rowSortLE r1 r2 = true := by
        simp [W3.rowSortLE, hy, hu, hp, Nat.le_of_lt hpg]
      have hle21 : W3.rowSortLE r2 r1 = false := by
        simp [W3.rowSortLE, hy, hu, hp, Nat.not_le.mpr hpg]
      constructor
      · unfold W3.dedupRows
        rw [mergeSort_pair, hle12]
        simp [W3.dropDupFirst, hy, hu]
      · unfold W3.dedupRows
        rw [mergeSort_pair, hle21]
        simp [W3.dropDupFirst, hy, hu]

/-- C4 witness: the claim's two concrete scenarios.  Explicit values
"45%" against "50%" resolve to "50%"; a high-quality (priority 2) wage row
of 10 beats a low-quality (priority 1) row of 90 in either input order. -/
theorem C4_dedup_tiebreaks_witness :
    W2.best_for_method
      [("previous internship", "45%"), ("previous co-op", "50%")] =
      [("Previous Internship/Co-op %", ("previous co-op", "50%"))] ∧
    W3.dedupRows
      [{ year := 2019, unit := "College of Education", n := 10,
         avg := some 10, med := some 10, pdf := "a.pdf", page := 4,
         priority := 2 },
       { year := 2019, unit := "College of Education", n := 90,
         avg := some 90, med := some 90, pdf := "a.pdf", page := 2,
         priority := 1 }] =
      [{ year := 2019, unit := "College of Education", n := 10,
         avg := some 10, med := some 10, pdf := "a.pdf", page := 4,
         priority := 2 }] :=
  ⟨(C4_dedup_tiebreaks.1 "previous internship" "previous co-op" "45%" "50%"
      "Previous Internship/Co-op %" (by with_unfolding_all rfl)
      (by with_unfolding_all rfl)).1
    (by
      have h1 : W2.pct_to_num "50%" = 50 := by with_unfolding_all rfl
      have h2 : W2.pct_to_num "45%" = 45 := by with_unfolding_all rfl
      rw [h1, h2]; norm_num),
   ((C4_dedup_tiebreaks.2
      { year := 2019, unit := "College of Education", n := 10,
        avg := some 10, med := some 10, pdf := "a.pdf", page := 4,
        priority := 2 }
      { year := 2019, unit := "College of Education", n := 90,
        avg := some 90, med := some 90, pdf := "a.pdf", page := 2,
        priority := 1 } rfl rfl).1 (by norm_num)).1⟩

/-- Invariants of the top-employers directory scan: the accumulated year
list collects exactly the years parsed from `.pdf` filenames (without
duplicates), and `year_to_pdf` maps each year to the FIRST file of the
listing that yields it. -/
theorem scan_fold_spec (reports : String) :
    ∀ (l : List String) (ys : List Nat) (d : List (Nat × String)),
    (∀ y : Nat, (d.find? (fun p => p.1 = y) = none) ↔ y ∉ ys) →
    ys.Nodup →
    (∀ y : Nat, y ∈ (l.foldl (TE.scanStep reports) (ys, d)).1 ↔
      (y ∈ ys ∨ ∃ f ∈ l, TE.isPdfB f = true ∧
        TE.year_from_filename f = some y)) ∧
    (∀ y : Nat, (l.foldl (TE.scanStep reports) (ys, d)).2.find?
        (fun p => p.1 = y) =
      (d.find? (fun p => p.1 = y)).or
        ((l.find? (fun f => TE.isPdfB f &&
            (TE.year_from_filename f == some y))).map
          (fun f => (y, reports ++ "/" ++ f)))) ∧
    (∀ y : Nat, ((l.foldl (TE.scanStep reports) (ys, d)).2.find?
        (fun p => p.1 = y) = none) ↔
      y ∉ (l.foldl (TE.scanStep reports) (ys, d)).1) ∧
    (l.foldl (TE.scanStep reports) (ys, d)).1.Nodup := by
  intro l
  induction l with
  | nil =>
    intro ys d hinv hnd
    refine ⟨fun y => by simp, fun y => by simp, hinv, hnd⟩
  | cons f fs ih =>
    intro ys d hinv hnd
    simp only [List.foldl_cons]
    by_cases hpdf : TE.isPdfB f = true
    · cases hyear : TE.year_from_filename f with
      | none =>
        have hstep : TE.scanStep reports (ys, d) f = (ys, d) := by
          unfold TE.scanStep; rw [hpdf, hyear]; simp
        rw [hstep]
        obtain ⟨m1, m2, m3, m4⟩ := ih ys d hinv hnd
        refine ⟨?_, ?_, m3, m4⟩
        · intro y
          rw [m1 y]
          constructor
          · rintro (h | ⟨g, hg, hh⟩)
            · exact Or.inl h
            · exact Or.inr ⟨g, List.mem_cons_of_mem _ hg, hh⟩
          · rintro (h | ⟨g, hg, hh⟩)
            · exact Or.inl h
            · rcases List.mem_cons.mp hg with rfl | hg'
              · rw [hyear] at hh; exact Option.noConfusion hh.2
              · exact Or.inr ⟨g, hg', hh⟩
        · intro y
          rw [m2 y, List.find?_cons_of_neg
            (p := fun g => TE.isPdfB g &&
              (TE.year_from_filename g == some y)) fs
            (by simp [hyear])]
      | some y0 =>
        by_cases hy0 : y0 ∈ ys
        · have hany : d.any (fun p => p.1 = y0) = true := by
            rw [List.any_eq_true]
            have h1 : ¬(d.find? (fun p => decide (p.1 = y0)) = none) := by
              rw [hinv y0]; simpa using hy0
            cases hf : d.find? (fun p => decide (p.1 = y0)) with
            | none => exact absurd hf h1
            | some p =>
              have h5 := List.find?_some hf
              refine ⟨p, List.mem_of_find?_eq_some hf, ?_⟩
              simpa using h5
          have hstep : TE.scanStep reports (ys, d) f = (ys, d) := by
            unfold TE.scanStep
            rw [hpdf, hyear]
            simp [hy0, hany]
          rw [hstep]
          obtain ⟨m1, m2, m3, m4⟩ := ih ys d hinv hnd
          refine ⟨?_, ?_, m3, m4⟩
          · intro y
            rw [m1 y]
            constructor
            · rintro (h | ⟨g, hg, hh⟩)
              · exact Or.inl h
              · exact Or.inr ⟨g, List.mem_cons_of_mem _ hg, hh⟩
            · rintro (h | ⟨g, hg, hh⟩)
              · exact Or.inl h
              · rcases List.mem_cons.mp hg with rfl | hg'
                · rw [hyear] at hh
                  rw [Option.some_inj] at hh
                  exact Or.inl (hh.2 ▸ hy0)
                · exact Or.inr ⟨g, hg', hh⟩
          · intro y
            rw [m2 y]
            by_cases hyy : y = y0
            · subst hyy
              have hds : ¬(d.find? (fun p => decide (p.1 = y)) = none) := by
                rw [hinv y]; simpa using hy0
              cases hf : d.find? (fun p => decide (p.1 = y)) with
              | none => exact absurd hf hds
              | some p => simp [Option.or]
            · have hside : ¬((TE.isPdfB f &&
                  (TE.year_from_filename f == some y)) = true) := by
                rw [hpdf, hyear, Bool.true_and, beq_iff_eq,
                  Option.some_inj]
                exact fun hc => hyy hc.symm
              rw [List.find?_cons_of_neg
                (p := fun g => TE.isPdfB g &&
                  (TE.year_from_filename g == some y)) fs hside]
        · have hany : d.any (fun p => p.1 = y0) = false := by
            rw [← Bool.not_eq_true, List.any_eq_true]
            rintro ⟨p, hp, hpy⟩
            have hne : ¬(d.find? (fun p => decide (p.1 = y0)) = none) := by
              intro hf
              rw [List.find?_eq_none] at hf
              exact hf p hp hpy
            rw [hinv y0] at hne
            exact hne hy0
          have hstep : TE.scanStep reports (ys, d) f =
              (ys ++ [y0], d ++ [(y0, reports ++ "/" ++ f)]) := by
            unfold TE.scanStep
            rw [hpdf, hyear]
            simp [hy0, hany]
          rw [hstep]
          have hsing : ∀ y : Nat, ¬(y = y0) →
              List.find? (fun p => decide (p.1 = y))
                [(y0, reports ++ "/" ++ f)] = none := by
            intro y hyy
            rw [List.find?_eq_none]
            intro x hx
            rw [List.mem_singleton] at hx
            subst hx
            simp only [decide_eq_true_eq]
            exact fun hc => hyy hc.symm
          have hinv' : ∀ y : Nat,
              ((d ++ [(y0, reports ++ "/" ++ f)]).find?
                (fun p => p.1 = y) = none) ↔ y ∉ ys ++ [y0] := by
            intro y
            rw [List.find?_append]
            constructor
            · intro h
              have h1 : d.find? (fun p => decide (p.1 = y)) = none := by
                cases hf : d.find? (fun p => decide (p.1 = y)) with
                | none => rfl
                | some p => rw [hf] at h; simp [Option.or] at h
              have h2 : ¬(y = y0) := by
                intro hyy
                subst hyy
                rw [h1] at h
                simp [Option.or, List.find?] at h
              rw [hinv y] at h1
              simp [h1, h2]
            · intro h
              simp only [List.mem_append, List.mem_singleton] at h
              push_neg at h
              have h1 : d.find? (fun p => decide (p.1 = y)) = none :=
                (hinv y).mpr h.1
              rw [h1, hsing y h.2]
              rfl
          have hnd' : (ys ++ [y0]).Nodup := by
            rw [List.nodup_append]
            exact ⟨hnd, List.nodup_singleton y0, by simpa using hy0⟩
          obtain ⟨m1, m2, m3, m4⟩ :=
            ih (ys ++ [y0]) (d ++ [(y0, reports ++ "/" ++ f)]) hinv' hnd'
          refine ⟨?_, ?_, m3, m4⟩
          · intro y
            rw [m1 y]
            simp only [List.mem_append, List.mem_singleton]
            constructor
            · rintro ((h | h) | ⟨g, hg, hh⟩)
              · exact Or.inl h
              · exact Or.inr ⟨f, List.mem_cons_self f fs,
                  hpdf, by rw [hyear, h]⟩
              · exact Or.inr ⟨g, List.mem_cons_of_mem _ hg, hh⟩
            · rintro (h | ⟨g, hg, hh⟩)
              · exact Or.inl (Or.inl h)
              · rcases List.mem_cons.mp hg with rfl | hg'
                · rw [hyear] at hh
                  rw [Option.some_inj] at hh
                  exact Or.inl (Or.inr hh.2.symm)
                · exact Or.inr ⟨g, hg', hh⟩
          · intro y
            rw [m2 y, List.find?_append]
            by_cases hyy : y = y0
            · subst hyy
              have h1 : d.find? (fun p => decide (p.1 = y)) = none :=
                (hinv y).mpr hy0
              have hpos : (TE.isPdfB f &&
                  (TE.year_from_filename f == some y)) = true := by
                rw [hpdf, hyear, Bool.true_and, beq_iff_eq]
              rw [h1, List.find?_cons_of_pos
                (p := fun g => TE.isPdfB g &&
                  (TE.year_from_filename g == some y)) fs hpos]
              simp [Option.or, List.find?]
            · have hside : ¬((TE.isPdfB f &&
                  (TE.year_from_filename f == some y)) = true) := by
                rw [hpdf, hyear, Bool.true_and, beq_iff_eq,
                  Option.some_inj]
                exact fun hc => hyy hc.symm
              rw [hsing y hyy, Option.or_none,
                List.find?_cons_of_neg
                  (p := fun g => TE.isPdfB g &&
                    (TE.year_from_filename g == some y)) fs hside]
    · have hstep : TE.scanStep reports (ys, d) f = (ys, d) := by
        unfold TE.scanStep
        rw [Bool.not_eq_true] at hpdf
        rw [hpdf]
        simp
      rw [hstep]
      obtain ⟨m1, m2, m3, m4⟩ := ih ys d hinv hnd
      refine ⟨?_, ?_, m3, m4⟩
      · intro y
        rw [m1 y]
        constructor
        · rintro (h | ⟨g, hg, hh⟩)
          · exact Or.inl h
          · exact Or.inr ⟨g, List.mem_cons_of_mem _ hg, hh⟩
        · rintro (h | ⟨g, hg, hh⟩)
          · exact Or.inl h
          · rcases List.mem_cons.mp hg with rfl | hg'
            · exact absurd hh.1 hpdf
            · exact Or.inr ⟨g, hg', hh⟩
      · intro y
        rw [Bool.not_eq_true] at hpdf
        rw [m2 y, List.find?_cons_of_neg
          (p := fun g => TE.isPdfB g &&
            (TE.year_from_filename g == some y)) fs
          (by simp [hpdf])]

/-- A path `a ++ "/" ++ b` is never the empty string. -/
theorem path_ne_empty (a b : String) : a ++ "/" ++ b ≠ "" := by
  intro h
  have h2 := congrArg String.data h
  rw [String.data_append, String.data_append] at h2
  have h3 : ("/" : String).data = ['/'] := rfl
  have h4 : ("" : String).data = [] := rfl
  rw [h3, h4] at h2
  rcases List.append_eq_nil.mp h2 with ⟨h5, -⟩
  rcases List.append_eq_nil.mp h5 with ⟨-, h6⟩
  exact List.noConfusion h6

/-- C10: the top-employers output contains exactly one row per distinct
4-digit year found among the `.pdf` filenames, in ascending year order;
the unit column is always "University-wide"; and each year's employer cell
is the extraction result from the FIRST file of the directory listing that
yields that year (the empty string when the extraction finds no employer —
the row is still emitted). -/
theorem C10_top_employers (reports : String) (listing : List String)
    (exsts : String → Bool) (pdfContent : String → List String)
    (hex : ∀ f ∈ listing, exsts (reports ++ "/" ++ f) = true) :
    ((TE.runTopEmployers reports listing exsts pdfContent).map
        (fun r => r.year)).Pairwise (· < ·) ∧
    (∀ y : Nat,
      y ∈ (TE.runTopEmployers reports listing exsts pdfContent).map
          (fun r => r.year) ↔
        ∃ f ∈ listing, TE.isPdfB f = true ∧
          TE.year_from_filename f = some y) ∧
    (∀ r ∈ TE.runTopEmployers reports listing exsts pdfContent,
      r.unit = "University-wide") ∧
    (∀ r ∈ TE.runTopEmployers reports listing exsts pdfContent,
      ∃ f, listing.find? (fun g => TE.isPdfB g &&
          (TE.year_from_filename g == some r.year)) = some f ∧
        r.employer =
          TE.extract_top_employer (pdfContent (reports ++ "/" ++ f))) := by
  obtain ⟨m1, m2, m3, m4⟩ := scan_fold_spec reports listing [] []
    (by intro y; simp [List.find?]) List.nodup_nil
  have hscan : TE.scanFolder reports listing =
      listing.foldl (TE.scanStep reports) ([], []) := rfl
  rw [← hscan] at m1 m2 m3 m4
  have m2' : ∀ y : Nat,
      (TE.scanFolder reports listing).2.find? (fun p => p.1 = y) =
      (listing.find? (fun g => TE.isPdfB g &&
          (TE.year_from_filename g == some y))).map
        (fun f => (y, reports ++ "/" ++ f)) := by
    intro y
    rw [m2 y]
    simp [List.find?, Option.or]
  have hyr : ∀ y, (TE.rowForYear exsts pdfContent
      (TE.scanFolder reports listing).2 y).year = y := by
    intro y
    unfold TE.rowForYear
    cases h : (TE.scanFolder reports listing).2.find?
        (fun p => p.1 = y) with
    | none => rfl
    | some p =>
      by_cases hc : (decide (p.2 = "") || !exsts p.2) = true
      · simp [hc]
      · simp [hc]
  have hrows : TE.runTopEmployers reports listing exsts pdfContent =
      ((TE.scanFolder reports listing).1.mergeSort (· ≤ ·)).map
        (TE.rowForYear exsts pdfContent
          (TE.scanFolder reports listing).2) := rfl
  have hmapyear :
      (TE.runTopEmployers reports listing exsts pdfContent).map
        (fun r => r.year) =
      (TE.scanFolder reports listing).1.mergeSort (· ≤ ·) := by
    rw [hrows, List.map_map]
    have : ((TE.scanFolder reports listing).1.mergeSort (· ≤ ·)).map
        ((fun r => TE.TERow.year r) ∘ (TE.rowForYear exsts pdfContent
          (TE.scanFolder reports listing).2)) =
      ((TE.scanFolder reports listing).1.mergeSort (· ≤ ·)).map id := by
      apply List.map_congr_left
      intro y _
      exact hyr y
    rw [this, List.map_id]
  have hsorted : ((TE.scanFolder reports listing).1.mergeSort
      (· ≤ ·)).Pairwise (· < ·) := by
    have h1 := @List.sorted_mergeSort Nat
      (fun a b : Nat => decide (a ≤ b))
      (fun a b c => by simp only [decide_eq_true_eq]; omega)
      (fun a b => by simp only [Bool.or_eq_true, decide_eq_true_eq]; omega)
      (TE.scanFolder reports listing).1
    have h2 : ((TE.scanFolder reports listing).1.mergeSort
        (· ≤ ·)).Nodup :=
      (List.mergeSort_perm (TE.scanFolder reports listing).1
        (· ≤ ·)).nodup_iff.mpr m4
    have h3 := List.Pairwise.and h1 h2
    exact h3.imp (fun hab => by
      obtain ⟨hle, hne⟩ := hab
      simp only [decide_eq_true_eq] at hle
      omega)
  refine ⟨?_, ?_, ?_, ?_⟩
  · rw [hmapyear]; exact hsorted
  · intro y
    rw [hmapyear, List.mem_mergeSort, m1 y]
    simp
  · intro r hr
    rw [hrows] at hr
    rw [List.mem_map] at hr
    obtain ⟨y, -, hy⟩ := hr
    rw [← hy]
    unfold TE.rowForYear
    cases h : (TE.scanFolder reports listing).2.find?
        (fun p => p.1 = y) with
    | none => rfl
    | some p =>
      by_cases hc : (decide (p.2 = "") || !exsts p.2) = true
      · simp [hc]; rfl
      · simp [hc]; rfl
  · intro r hr
    rw [hrows] at hr
    rw [List.mem_map] at hr
    obtain ⟨y, hymem, hy⟩ := hr
    rw [List.mem_mergeSort] at hymem
    have hns : ¬((TE.scanFolder reports listing).2.find?
        (fun p => p.1 = y) = none) := by
      rw [m3 y]; simpa using hymem
    cases hfind : (TE.scanFolder reports listing).2.find?
        (fun p => p.1 = y) with
    | none => exact absurd hfind hns
    | some p =>
      have h2 := m2' y
      rw [hfind] at h2
      cases hfl : listing.find? (fun g => TE.isPdfB g &&
          (TE.year_from_filename g == some y)) with
      | none => rw [hfl] at h2; simp at h2
      | some f =>
        rw [hfl] at h2
        simp at h2
        have hfmem : f ∈ listing := List.mem_of_find?_eq_some hfl
        have hpath : p.2 = reports ++ "/" ++ f := by rw [h2]
        have hexf : exsts p.2 = true := by rw [hpath]; exact hex f hfmem
        have hpne : ¬(p.2 = "") := by rw [hpath]; exact path_ne_empty _ _
        have hryear : r.year = y := by rw [← hy]; exact hyr y
        refine ⟨f, by rw [hryear]; exact hfl, ?_⟩
        rw [← hy]
        unfold TE.rowForYear
        rw [hfind]
        have hcond : (decide (p.2 = "") || !exsts p.2) = false := by
          rw [hexf, decide_eq_false hpne]
          rfl
        simp only [hcond, Bool.false_eq_true, if_false]
        rw [hpath]
        by_cases he : TE.extract_top_employer
            (pdfContent (reports ++ "/" ++ f)) = ""
        · simp [he]
        · simp [he]

section SelectionLemma

variable {α : Type _} (sc : α → Nat)

/-- The stable descending sort's head is the FIRST element of maximal
score: it dominates every element and everything placed before it in the
original list has a strictly smaller score. -/
theorem mergeSort_head_first_max :
    ∀ (l : List α) (b : α) (rest : List α),
    l.mergeSort (fun x y => decide (sc y ≤ sc x)) = b :: rest →
    b ∈ l ∧ (∀ c ∈ l, sc c ≤ sc b) ∧
    ∃ pre post, l = pre ++ b :: post ∧ ∀ c ∈ pre, sc c < sc b := by
  have htrans : ∀ x y z : α, (fun x y => decide (sc y ≤ sc x)) x y = true →
      (fun x y => decide (sc y ≤ sc x)) y z = true →
      (fun x y => decide (sc y ≤ sc x)) x z = true := by
    intro x y z
    simp only [decide_eq_true_eq]
    omega
  have htotal : ∀ x y : α, ((fun x y => decide (sc y ≤ sc x)) x y ||
      (fun x y => decide (sc y ≤ sc x)) y x) = true := by
    intro x y
    simp only [Bool.or_eq_true, decide_eq_true_eq]
    omega
  have hdecomp : ∀ (l : List α) (b : α) (rest : List α),
      l.mergeSort (fun x y => decide (sc y ≤ sc x)) = b :: rest →
      ∃ pre post, l = pre ++ b :: post ∧ ∀ c ∈ pre, sc c < sc b := by
    intro l
    induction l with
    | nil => intro b rest h; rw [List.mergeSort_nil] at h; cases h
    | cons a l2 ih =>
      intro b rest h
      obtain ⟨l₁, l₂, h1, h2, h3⟩ := List.mergeSort_cons htrans htotal a l2
      cases hl₁ : l₁ with
      | nil =>
        rw [hl₁, List.nil_append] at h1
        rw [h1] at h
        injection h with hb hrest
        exact ⟨[], l2, by rw [hb]; rfl, by intro c hc; cases hc⟩
      | cons b' l₁' =>
        rw [hl₁] at h1 h2 h3
        rw [h1] at h
        rw [List.cons_append] at h
        injection h with hb hrest
        obtain ⟨pre, post, hsplit, hlt⟩ := ih b' (l₁' ++ l₂) h2
        have hab : sc a < sc b' := by
          have h4 := h3 b' (List.mem_cons_self b' l₁')
          rw [Bool.not_eq_true'] at h4
          rw [decide_eq_false_iff_not] at h4
          omega
        refine ⟨a :: pre, post, by rw [List.cons_append, ← hb, ← hsplit], ?_⟩
        intro c hc
        rcases List.mem_cons.mp hc with rfl | hc'
        · rw [← hb]; exact hab
        · rw [← hb]; exact hlt c hc'
  intro l b rest h
  refine ⟨?_, ?_, hdecomp l b rest h⟩
  · exact List.mem_mergeSort.mp (h ▸ List.mem_cons_self b rest)
  · intro c hc
    have hcm : c ∈ b :: rest := h ▸ List.mem_mergeSort.mpr hc
    rcases List.mem_cons.mp hcm with rfl | hcr
    · exact Nat.le_refl _
    · have hp := List.sorted_mergeSort htrans htotal l
      rw [h] at hp
      have := (List.pairwise_cons.mp hp).1 c hcr
      simpa using this

end SelectionLemma

/-- An empty table row yields no full (label, count, percent) triple. -/
theorem rowFull_nil : W1.rowFull [] = false := rfl

/-- Double-negation on booleans, in the form `split` hypotheses take. -/
theorem bool_unnot : ∀ X : Bool, ¬((!X) = true) → X = true := by decide

/-- Lower-casing preserves emptiness. -/
theorem isEmpty_pyLower (l : List Char) : (pyLower l).isEmpty = l.isEmpty := by
  cases l <;> rfl

/-- C9: (i) the outcomes-table test's score counts, among the first 15
rows, exactly those yielding a valid label, a count and a percent
simultaneously, and a table qualifies if and only if that score is at
least 3 AND some first-15 row's extracted label contains one of the target
outcome keywords; (ii) among the scored qualifying tables of a page, the
sorted candidate list's head is the first-encountered table of maximal
score (highest score wins, ties keep the first). -/
theorem C9_table_scoring_selection :
    (∀ t : List (List (Option String)),
      (W1.is_outcomes_table t).2 = (t.take 15).countP W1.rowFull ∧
      ((W1.is_outcomes_table t).1 = true ↔
        (3 ≤ (t.take 15).countP W1.rowFull ∧
         ∃ r ∈ t.take 15, r.isEmpty = false ∧
           (W1.find_label r).isEmpty = false ∧
           (containsSub (pyLower (W1.find_label r)) "employed".toList ||
            containsSub (pyLower (W1.find_label r)) "unplaced".toList ||
            containsSub (pyLower (W1.find_label r)) "unresolved".toList) =
             true))) ∧
    (∀ (tables : List (List (List (Option String))))
       (b : Nat × List (List (Option String)))
       (rest : List (Nat × List (List (Option String)))),
      (W1.candidates tables).mergeSort (fun a b => decide (b.1 ≤ a.1)) =
        b :: rest →
      b ∈ W1.candidates tables ∧
      (∀ c ∈ W1.candidates tables, c.1 ≤ b.1) ∧
      ∃ pre post, W1.candidates tables = pre ++ b :: post ∧
        ∀ c ∈ pre, c.1 < b.1) := by
  constructor
  · intro t
    have hscore : ((t.take 15).filter (fun r => !r.isEmpty)).countP
        W1.rowFull = (t.take 15).countP W1.rowFull := by
      rw [List.countP_filter]
      apply List.countP_congr
      intro r _
      cases r with
      | nil => simp [rowFull_nil]
      | cons c cs => simp [List.isEmpty_cons]
    constructor
    · unfold W1.is_outcomes_table
      by_cases h1 : (((t.take 15).filter (fun r => !r.isEmpty)).countP
          W1.rowFull) < 3
      · simp only [h1, if_true, hscore.symm]
      · simp only [h1, if_false]
        split <;> simp [hscore]
    · unfold W1.is_outcomes_table
      by_cases h1 : (((t.take 15).filter (fun r => !r.isEmpty)).countP
          W1.rowFull) < 3
      · simp only [h1, if_true]
        rw [hscore] at h1
        constructor
        · intro h; simp at h
        · rintro ⟨h2, -⟩; omega
      · simp only [h1, if_false]
        rw [hscore] at h1
        have hkey : ((((t.take 15).filter (fun r => !r.isEmpty)).map
            (fun r => pyLower (W1.find_label r))).filter
              (fun l => !l.isEmpty)).any (fun l =>
                containsSub l "employed".toList ||
                containsSub l "unplaced".toList ||
                containsSub l "unresolved".toList) = true ↔
            ∃ r ∈ t.take 15, r.isEmpty = false ∧
              (W1.find_label r).isEmpty = false ∧
              (containsSub (pyLower (W1.find_label r)) "employed".toList ||
               containsSub (pyLower (W1.find_label r)) "unplaced".toList ||
               containsSub (pyLower (W1.find_label r))
                 "unresolved".toList) = true := by
          rw [List.any_eq_true]
          constructor
          · rintro ⟨l, hl, hlk⟩
            rw [List.mem_filter] at hl
            obtain ⟨hl1, hl2⟩ := hl
            rw [List.mem_map] at hl1
            obtain ⟨r, hr, hrl⟩ := hl1
            rw [List.mem_filter] at hr
            refine ⟨r, hr.1, by simpa using hr.2, ?_, by rw [hrl]; exact hlk⟩
            rw [← hrl, isEmpty_pyLower] at hl2
            simpa using hl2
          · rintro ⟨r, hr, hre, hrl, hrk⟩
            refine ⟨pyLower (W1.find_label r), ?_, hrk⟩
            rw [List.mem_filter]
            constructor
            · rw [List.mem_map]
              exact ⟨r, List.mem_filter.mpr ⟨hr, by simp [hre]⟩, rfl⟩
            · rw [isEmpty_pyLower]
              simp [hrl]
        constructor
        · intro h
          split at h
          · simp at h
          · rename_i hany
            have hany2 : ((((t.take 15).filter (fun r => !r.isEmpty)).map
                (fun r => pyLower (W1.find_label r))).filter
                  (fun l => !l.isEmpty)).any (fun l =>
                    containsSub l "employed".toList ||
                    containsSub l "unplaced".toList ||
                    containsSub l "unresolved".toList) = true :=
              bool_unnot _ hany
            exact ⟨by omega, hkey.mp hany2⟩
        · rintro ⟨-, hex⟩
          have hany := hkey.mpr hex
          rw [hany]
          rfl
  · intro tables b rest h
    exact mergeSort_head_first_max Prod.fst (W1.candidates tables) b rest h

/-- C9 witness: a page with two qualifying tables, the second scoring
higher; the selection facts applied to its computed candidate list. -/
theorem C9_table_scoring_selection_witness :
    (4, [[some "Employed FT", some "10", some "50%"],
         [some "Employed PT", some "20", some "30%"],
         [some "Unplaced", some "30", some "20%"],
         [some "Total", some "60", some "100%"]]) ∈
      W1.candidates
        [[[some "Employed FT", some "1", some "5%"],
          [some "Unplaced", some "2", some "10%"],
          [some "Volunteering", some "3", some "15%"]],
         [[some "Employed FT", some "10", some "50%"],
          [some "Employed PT", some "20", some "30%"],
          [some "Unplaced", some "30", some "20%"],
          [some "Total", some "60", some "100%"]]] ∧
    ∀ c ∈ W1.candidates
        [[[some "Employed FT", some "1", some "5%"],
          [some "Unplaced", some "2", some "10%"],
          [some "Volunteering", some "3", some "15%"]],
         [[some "Employed FT", some "10", some "50%"],
          [some "Employed PT", some "20", some "30%"],
          [some "Unplaced", some "30", some "20%"],
          [some "Total", some "60", some "100%"]]], c.1 ≤ 4 := by
  have h := (C9_table_scoring_selection.2
    [[[some "Employed FT", some "1", some "5%"],
      [some "Unplaced", some "2", some "10%"],
      [some "Volunteering", some "3", some "15%"]],
     [[some "Employed FT", some "10", some "50%"],
      [some "Employed PT", some "20", some "30%"],
      [some "Unplaced", some "30", some "20%"],
      [some "Total", some "60", some "100%"]]]
    (4, [[some "Employed FT", some "10", some "50%"],
         [some "Employed PT", some "20", some "30%"],
         [some "Unplaced", some "30", some "20%"],
         [some "Total", some "60", some "100%"]])
    [(3, [[some "Employed FT", some "1", some "5%"],
          [some "Unplaced", some "2", some "10%"],
          [some "Volunteering", some "3", some "15%"]])]
    (by with_unfolding_all rfl))
  exact ⟨h.1, h.2.1⟩

/-- C10 witness: the output facts applied to a concrete directory listing
with two files for 2019, one for 2018 and one non-PDF. -/
theorem C10_top_employers_witness :
    ((TE.runTopEmployers "GraduationSurveyReports"
        ["2019b.pdf", "2019a.pdf", "2018.pdf", "notes2020.txt"]
        (fun _ => true)
        (fun p => if p = "GraduationSurveyReports/2019b.pdf"
          then ["TOP EMPLOYERS\nDeloitte 63"] else [])).map
      (fun r => r.year)).Pairwise (· < ·) ∧
    (∀ r ∈ TE.runTopEmployers "GraduationSurveyReports"
        ["2019b.pdf", "2019a.pdf", "2018.pdf", "notes2020.txt"]
        (fun _ => true)
        (fun p => if p = "GraduationSurveyReports/2019b.pdf"
          then ["TOP EMPLOYERS\nDeloitte 63"] else []),
      r.unit = "University-wide") :=
  ⟨(C10_top_employers "GraduationSurveyReports"
      ["2019b.pdf", "2019a.pdf", "2018.pdf", "notes2020.txt"]
      (fun _ => true)
      (fun p => if p = "GraduationSurveyReports/2019b.pdf"
        then ["TOP EMPLOYERS\nDeloitte 63"] else [])
      (fun _ _ => rfl)).1,
   (C10_top_employers "GraduationSurveyReports"
      ["2019b.pdf", "2019a.pdf", "2018.pdf", "notes2020.txt"]
      (fun _ => true)
      (fun p => if p = "GraduationSurveyReports/2019b.pdf"
        then ["TOP EMPLOYERS\nDeloitte 63"] else [])
      (fun _ _ => rfl)).2.2.1⟩

/-- Summing a constant over a list. -/
theorem sum_map_const {α : Type _} (l : List α) (c : Nat) :
    (l.map (fun _ => c)).sum = l.length * c := by
  induction l with
  | nil => simp
  | cons x xs ih => simp [ih, Nat.succ_mul, Nat.add_comm]

/-- Every grid cell keeps its key's year. -/
theorem gridCell_year (recs : List W3.Row) (p : Nat × String) :
    (W3.gridCell recs p).year = p.1 := by
  unfold W3.gridCell
  cases recs.find? (fun r => r.year = p.1 && r.unit = p.2) <;> rfl

/-- Every grid cell keeps its key's unit. -/
theorem gridCell_unit (recs : List W3.Row) (p : Nat × String) :
    (W3.gridCell recs p).unit = p.2 := by
  unfold W3.gridCell
  cases recs.find? (fun r => r.year = p.1 && r.unit = p.2) <;> rfl

/-- Counting a key in the year × unit cross-product: present exactly once
when both coordinates are present (`ys` without duplicates). -/
theorem countP_product (y : Nat) (u : String) :
    ∀ ys : List Nat, ys.Nodup → y ∈ ys → u ∈ unit_order →
    (ys.flatMap (fun y' => unit_order.map (fun u' => (y', u')))).countP
      (fun pr => decide (pr.1 = y) && decide (pr.2 = u)) = 1 := by
  have hblock : ∀ y' : Nat,
      (unit_order.map (fun u' => (y', u'))).countP
        (fun pr => decide (pr.1 = y) && decide (pr.2 = u)) =
      if y' = y then unit_order.countP (fun u' => decide (u' = u))
      else 0 := by
    intro y'
    rw [List.countP_map]
    by_cases hy : y' = y
    · rw [if_pos hy]
      apply List.countP_congr
      intro u' _
      simp [Function.comp, hy]
    · rw [if_neg hy]
      rw [List.countP_eq_zero]
      intro u' _
      simp [Function.comp, hy]
  have hcount : u ∈ unit_order →
      unit_order.countP (fun u' => decide (u' = u)) = 1 := by
    intro hu
    have hnd : unit_order.Nodup := by decide
    have h1 : unit_order.countP (fun u' => decide (u' = u)) =
        unit_order.count u := by
      unfold List.count
      apply List.countP_congr
      intro u' _
      simp [beq_iff_eq]
    rw [h1]
    exact List.count_eq_one_of_mem hnd hu
  intro ys
  induction ys with
  | nil => intro _ hy; cases hy
  | cons y' ys' ih =>
    intro hnd hy hu
    rw [List.flatMap_cons, List.countP_append, hblock y']
    rcases List.mem_cons.mp hy with rfl | hy'
    · rw [if_pos rfl, hcount hu]
      have hz : (ys'.flatMap (fun y'' => unit_order.map
          (fun u' => (y'', u')))).countP
          (fun pr => decide (pr.1 = y) && decide (pr.2 = u)) = 0 := by
        rw [List.countP_eq_zero]
        intro pr hpr
        rw [List.mem_flatMap] at hpr
        obtain ⟨y'', hy'', hpr2⟩ := hpr
        rw [List.mem_map] at hpr2
        obtain ⟨u'', -, hpr3⟩ := hpr2
        have hne : y'' ≠ y := by
          intro hc
          subst hc
          exact (List.nodup_cons.mp hnd).1 hy''
        rw [← hpr3]
        simp [hne]
      rw [hz]
    · have hne : ¬(y' = y) := by
        intro hc
        subst hc
        exact (List.nodup_cons.mp hnd).1 hy'
      rw [if_neg hne, ih (List.nodup_cons.mp hnd).2 hy' hu]

/-- C3: the assembled output grid has exactly |units| × |years| rows; the
rows are ordered by year ascending then by unit in enumeration order;
every (year, unit) pair of the cross-product appears in exactly one row;
and a pair with no matching record is emitted as a row with empty metric
cells, never omitted. -/
theorem C3_grid_shape (ys : List Nat) (recs : List W3.Row)
    (hnd : ys.Nodup) :
    (W3.buildGrid ys recs).length = ys.length * unit_order.length ∧
    (W3.buildGrid ys recs).Pairwise (fun a b => W3.gridLE a b = true) ∧
    (∀ y ∈ ys, ∀ u ∈ unit_order,
      (W3.buildGrid ys recs).countP
        (fun r => decide (r.year = y) && decide (r.unit = u)) = 1) ∧
    (∀ y ∈ ys, ∀ u ∈ unit_order,
      (∀ r ∈ recs, ¬(r.year = y ∧ r.unit = u)) →
      ({ unit := u, year := y, n := none, avg := none, med := none } :
        W3.GridRow) ∈ W3.buildGrid ys recs) := by
  have htrans : ∀ a b c : W3.GridRow, W3.gridLE a b = true →
      W3.gridLE b c = true → W3.gridLE a c = true := by
    intro a b c
    unfold W3.gridLE
    simp only [Bool.or_eq_true, Bool.and_eq_true, decide_eq_true_eq]
    omega
  have htotal : ∀ a b : W3.GridRow,
      (W3.gridLE a b || W3.gridLE b a) = true := by
    intro a b
    unfold W3.gridLE
    simp only [Bool.or_eq_true, Bool.and_eq_true, decide_eq_true_eq]
    omega
  refine ⟨?_, ?_, ?_, ?_⟩
  · unfold W3.buildGrid
    rw [List.length_mergeSort, List.length_map, List.length_flatMap]
    have : (List.map (List.length ∘ fun y =>
        unit_order.map (fun u => (y, u))) ys) =
        ys.map (fun _ => unit_order.length) := by
      apply List.map_congr_left
      intro y _
      simp [Function.comp]
    rw [this, sum_map_const]
  · unfold W3.buildGrid
    exact List.sorted_mergeSort htrans htotal _
  · intro y hy u hu
    unfold W3.buildGrid
    rw [(List.mergeSort_perm _ _).countP_eq, List.countP_map]
    have : ((fun r : W3.GridRow => decide (r.year = y) &&
        decide (r.unit = u)) ∘ W3.gridCell recs) =
        fun pr : Nat × String => decide ((W3.gridCell recs pr).year = y) &&
          decide ((W3.gridCell recs pr).unit = u) := rfl
    rw [this]
    have hcong : (ys.flatMap (fun y' => unit_order.map
        (fun u' => (y', u')))).countP
        (fun pr => decide ((W3.gridCell recs pr).year = y) &&
          decide ((W3.gridCell recs pr).unit = u)) =
      (ys.flatMap (fun y' => unit_order.map (fun u' => (y', u')))).countP
        (fun pr => decide (pr.1 = y) && decide (pr.2 = u)) := by
      apply List.countP_congr
      intro pr _
      rw [gridCell_year, gridCell_unit]
    rw [hcong]
    exact countP_product y u ys hnd hy hu
  · intro y hy u hu hnone
    unfold W3.buildGrid
    rw [List.mem_mergeSort, List.mem_map]
    refine ⟨(y, u), ?_, ?_⟩
    · rw [List.mem_flatMap]
      exact ⟨y, hy, List.mem_map.mpr ⟨u, hu, rfl⟩⟩
    · unfold W3.gridCell
      have hfind : recs.find? (fun r => r.year = y && r.unit = u) =
          none := by
        rw [List.find?_eq_none]
        intro r hr
        have := hnone r hr
        simp only [Bool.and_eq_true, decide_eq_true_eq]
        intro hc
        exact this ⟨hc.1, hc.2⟩
      rw [hfind]

/-- C3 witness: the grid facts at a concrete two-year folder with a single
record: 2 × 17 rows, and the empty cell for a pair with no record. -/
theorem C3_grid_shape_witness :
    (W3.buildGrid [2019, 2020]
      [{ year := 2019, unit := "College of Education", n := 120,
         avg := none, med := none, pdf := "a.pdf", page := 3,
         priority := 1 }]).length = 2 * unit_order.length ∧
    ({ unit := "Honors College", year := 2020, n := none, avg := none,
       med := none } : W3.GridRow) ∈
      W3.buildGrid [2019, 2020]
        [{ year := 2019, unit := "College of Education", n := 120,
           avg := none, med := none, pdf := "a.pdf", page := 3,
           priority := 1 }] :=
  ⟨(C3_grid_shape [2019, 2020]
      [{ year := 2019, unit := "College of Education", n := 120,
         avg := none, med := none, pdf := "a.pdf", page := 3,
         priority := 1 }] (by decide)).1,
   (C3_grid_shape [2019, 2020]
      [{ year := 2019, unit := "College of Education", n := 120,
         avg := none, med := none, pdf := "a.pdf", page := 3,
         priority := 1 }] (by decide)).2.2.2 2020 (by decide)
      "Honors College" (by decide)
      (by intro r hr; simp at hr; rw [hr]; simp)⟩

end Survey
